import Mathlib

/-!
Verification development for the GPT Generals repository.

The repository contains two revisions of the game engine:

* `SrcEngine` embeds the engine observed in `src/game_engine.py` (character
  grid, units "A".."Z", resources "r", `total_resources_collected`).
* `SpecEngine` models the later multi-player engine (LAND/WATER terrain,
  coins, player-owned units, turn counter and history).  That file is not
  present under `src/`; only its callers (`game_server.py`, `simulation.py`,
  `game_client.py`) and its tests (`tests/test_game_engine.py`) are, so its
  operations here are modelled from the specification, as marked on each
  definition.
* `Server` embeds the room/lobby logic of `src/game_server.py`.

Python `dict`s (which preserve insertion order) are embedded as association
lists; the helpers below mirror lookup, in-place update, deletion and
insert-or-assign on such lists.
-/

/-- Lookup in an insertion-ordered association list (Python `d[k]` / `k in d`). -/
def alookup {α : Type} (l : List (String × α)) (k : String) : Option α :=
  match l with
  | [] => none
  | (k2, v) :: rest => if k2 = k then some v else alookup rest k

/-- Membership test (Python `k in d`). -/
def acontains {α : Type} (l : List (String × α)) (k : String) : Bool :=
  (alookup l k).isSome

/-- Update the first binding of `k` in place (Python `d[k].field = ...` /
`d[k] = f(d[k])` on an existing key). -/
def amodify {α : Type} (l : List (String × α)) (k : String) (f : α → α) :
    List (String × α) :=
  match l with
  | [] => []
  | (k2, v) :: rest =>
    if k2 = k then (k2, f v) :: rest else (k2, v) :: amodify rest k f

/-- Delete the binding of `k` (Python `del d[k]`); keys bound at most once. -/
def aerase {α : Type} (l : List (String × α)) (k : String) : List (String × α) :=
  match l with
  | [] => []
  | (k2, v) :: rest => if k2 = k then rest else (k2, v) :: aerase rest k

/-- Insert-or-assign (Python `d[k] = v`): replaces in place if `k` is bound,
otherwise appends at the end, matching dict insertion order. -/
def aset {α : Type} (l : List (String × α)) (k : String) (v : α) :
    List (String × α) :=
  match l with
  | [] => [(k, v)]
  | (k2, v2) :: rest =>
    if k2 = k then (k2, v) :: rest else (k2, v2) :: aset rest k v

/-- Numeric value of a decimal digit character. -/
def charVal (c : Char) : Nat := c.toNat - 48

/-- One step of reading a decimal numeral from the left. -/
def digitStep (a : Nat) (c : Char) : Nat := 10 * a + charVal c

/-- Decimal reading of a character list.  Used below to show `Nat.repr` is
injective, which is what makes every sequentially allocated player id
(`p0, p1, …`) distinct from all earlier ones. -/
def unrepr (l : List Char) : Nat := l.foldl digitStep 0

namespace SrcEngine

/-- Unit record of `src/game_engine.py` (`UnitInfo`): grid coordinates and the
per-unit resource count. -/
structure UnitInfo where
  x : Int
  y : Int
  resources : Nat
deriving DecidableEq, Repr

instance : Inhabited UnitInfo := ⟨⟨0, 0, 0⟩⟩

/-- State of `src/game_engine.py`'s `GameEngine`.  The fields `num_units`,
`num_resources` and `num_water_cells` are configuration only used by the
random constructor and are omitted; every operation below reads only the
fields kept here. -/
structure GameEngine where
  grid_size : Nat
  unit_labels : List String
  target_resources : Int
  total_resources_collected : Nat
  winner : Option String
  grid : List (List String)
  units : List (String × UnitInfo)
deriving DecidableEq, Repr

/-- Read `grid[y][x]`; the source only indexes after its own bounds checks,
so out-of-range reads (never reached from the embedded operations on
well-formed states) return `""`. -/
def gridGet (g : List (List String)) (x y : Int) : String :=
  if 0 ≤ x ∧ 0 ≤ y then (g.getD y.toNat []).getD x.toNat "" else ""

/-- Write `grid[y][x] = v`; out-of-range writes leave the grid unchanged. -/
def gridSet (g : List (List String)) (x y : Int) (v : String) :
    List (List String) :=
  if 0 ≤ x ∧ 0 ≤ y then g.set y.toNat ((g.getD y.toNat []).set x.toNat v)
  else g

/-- Target cell of a move: the direction arithmetic shared by
`is_valid_move` and `move_unit` ("up" is `y - 1`; any string other than
"up"/"down"/"left" falls into the `else` branch, i.e. "right", exactly as in
the source). -/
def dirTarget (x y : Int) (direction : String) : Int × Int :=
  if direction = "up" then (x, y - 1)
  else if direction = "down" then (x, y + 1)
  else if direction = "left" then (x - 1, y)
  else (x + 1, y)

/-- `GameEngine.is_valid_move` of `src/game_engine.py`: unknown unit, an
out-of-bounds target, a water target ("~") or a target occupied by a unit
letter make the move invalid. -/
def is_valid_move (s : GameEngine) (unit direction : String) : Bool :=
  match alookup s.units unit with
  | none => false
  | some u =>
    let t := dirTarget u.x u.y direction
    if ¬ (0 ≤ t.1 ∧ t.1 < (s.grid_size : Int) ∧ 0 ≤ t.2 ∧ t.2 < (s.grid_size : Int)) then
      false
    else if gridGet s.grid t.1 t.2 = "~" then false
    else if s.unit_labels.contains (gridGet s.grid t.1 t.2) then false
    else true

/-- `GameEngine._determine_winner`: the unit with strictly the most
resources, in dict iteration order, starting from `(0, "")`. -/
def _determine_winner (units : List (String × UnitInfo)) : String :=
  (units.foldl
    (fun (acc : Nat × String) p =>
      if p.2.resources > acc.1 then (p.2.resources, p.1) else acc)
    (0, "")).2

/-- `GameEngine.move_unit` of `src/game_engine.py`: validates, moves the unit
on the grid and in `units`, and collects a resource at the target cell. -/
def move_unit (s : GameEngine) (unit direction : String) :
    Bool × GameEngine :=
  if ¬ is_valid_move s unit direction then (false, s)
  else
    match alookup s.units unit with
    | none => (false, s)
    | some u =>
      let t := dirTarget u.x u.y direction
      let has_resource := gridGet s.grid t.1 t.2 = "r"
      let grid2 := gridSet (gridSet s.grid u.x u.y " ") t.1 t.2 unit
      let units1 := amodify s.units unit (fun v => { v with x := t.1, y := t.2 })
      if has_resource then
        let units2 := amodify units1 unit
          (fun v => { v with resources := v.resources + 1 })
        let total2 := s.total_resources_collected + 1
        let winner2 :=
          if s.target_resources ≤ (total2 : Int) then
            some (_determine_winner units2)
          else s.winner
        (true, { s with grid := grid2, units := units2,
                        total_resources_collected := total2, winner := winner2 })
      else
        (true, { s with grid := grid2, units := units1 })

/-- `GameEngine.collect_resource` of `src/game_engine.py`. -/
def collect_resource (s : GameEngine) (unit : String) : Bool × GameEngine :=
  match alookup s.units unit with
  | none => (false, s)
  | some u =>
    if gridGet s.grid u.x u.y = "r" then
      let grid1 := gridSet s.grid u.x u.y unit
      let units1 := amodify s.units unit
        (fun v => { v with resources := v.resources + 1 })
      let total1 := s.total_resources_collected + 1
      let winner1 :=
        if s.target_resources ≤ (total1 : Int) then
          some (_determine_winner units1)
        else s.winner
      (true, { s with grid := grid1, units := units1,
                      total_resources_collected := total1, winner := winner1 })
    else (false, s)

/-- Python `str.split()` with no argument: split on whitespace runs,
discarding empty pieces. -/
def pySplit (s : String) : List String :=
  (s.split Char.isWhitespace).filter (fun t => t ≠ "")

/-- `GameEngine.process_command` of `src/game_engine.py`: normalizes the
command, requires at least two parts, an existing unit and one of the four
directions, then delegates to `move_unit`. -/
def process_command (s : GameEngine) (command : String) : Bool × GameEngine :=
  let parts := pySplit (command.trim.toLower)
  match parts with
  | u :: d :: _ =>
    let unit := u.toUpper
    let direction := d.toLower
    if (alookup s.units unit).isNone then (false, s)
    else if ¬ (direction = "up" ∨ direction = "down" ∨ direction = "left"
               ∨ direction = "right") then (false, s)
    else move_unit s unit direction
  | _ => (false, s)

/-- `GameEngine.is_game_over` of `src/game_engine.py`. -/
def is_game_over (s : GameEngine) : Bool :=
  decide (s.target_resources ≤ (s.total_resources_collected : Int))

/-- Sum of the per-unit `resources` counters. -/
def resourceSum (l : List (String × UnitInfo)) : Nat :=
  (l.map (fun p => p.2.resources)).sum

/-- States reachable from a freshly constructed engine by `move_unit`,
`collect_resource` and `process_command`.  The base case characterizes every
output of the (randomized) constructor: `total_resources_collected` is `0`
and every placed unit starts with `resources = 0`. -/
inductive Reachable : GameEngine → Prop
  | fresh (s : GameEngine) (h0 : s.total_resources_collected = 0)
      (hu : ∀ p ∈ s.units, p.2.resources = 0) : Reachable s
  | move (s : GameEngine) (unit direction : String) (h : Reachable s) :
      Reachable (move_unit s unit direction).2
  | collect (s : GameEngine) (unit : String) (h : Reachable s) :
      Reachable (collect_resource s unit).2
  | cmd (s : GameEngine) (command : String) (h : Reachable s) :
      Reachable (process_command s command).2

/-!
Heap model for `GameEngine.get_state`.  The claim about `get_state` is about
aliasing: the returned snapshot holds *copies* of the grid rows
(`[row[:] for row in self.grid]`) and of the unit records (`info.copy()`), so
mutating the snapshot must not touch the engine.  Python's mutable lists and
dicts are modelled as addresses into a `Store`; the engine holds addresses of
its grid rows and unit records, and `get_state` allocates fresh addresses for
the copies. -/

/-- Backing store: grid rows and unit records addressed by index. -/
structure Store where
  rows : List (List String)
  infos : List UnitInfo
deriving DecidableEq, Repr

/-- The engine with its mutable parts (grid rows, unit records) replaced by
store addresses; scalar fields are held directly, as in the source. -/
structure EngineRef where
  grid_size : Nat
  unit_labels : List String
  target_resources : Int
  total_resources_collected : Nat
  winner : Option String
  gridAddrs : List Nat
  unitAddrs : List (String × Nat)
deriving DecidableEq, Repr

/-- Read the grid row at address `a`. -/
def readRow (st : Store) (a : Nat) : List String := st.rows.getD a []

/-- Read the unit record at address `a`. -/
def readInfo (st : Store) (a : Nat) : UnitInfo := st.infos.getD a ⟨0, 0, 0⟩

/-- Mutate the grid row at address `a` (e.g. overwriting one of its cells). -/
def writeRow (st : Store) (a : Nat) (v : List String) : Store :=
  { st with rows := st.rows.set a v }

/-- Mutate the unit record at address `a`. -/
def writeInfo (st : Store) (a : Nat) (v : UnitInfo) : Store :=
  { st with infos := st.infos.set a v }

/-- The pure engine value an `EngineRef` denotes in a store. -/
def deref (st : Store) (e : EngineRef) : GameEngine :=
  { grid_size := e.grid_size, unit_labels := e.unit_labels,
    target_resources := e.target_resources,
    total_resources_collected := e.total_resources_collected,
    winner := e.winner,
    grid := e.gridAddrs.map (readRow st),
    units := e.unitAddrs.map (fun p => (p.1, readInfo st p.2)) }

/-- Allocate one fresh row per engine row, starting at address `rb`,
each holding a copy of the engine's row (`row[:]`).  Returns the fresh
addresses and the copied contents in order. -/
def allocRows (st : Store) (rb : Nat) : List Nat → List Nat × List (List String)
  | [] => ([], [])
  | a :: rest =>
    let r := allocRows st (rb + 1) rest
    (rb :: r.1, readRow st a :: r.2)

/-- Allocate one fresh record per unit, starting at address `ib`, each
holding a copy of the unit's record (`info.copy()`), keyed like the
original dict. -/
def allocUnits (st : Store) (ib : Nat) :
    List (String × Nat) → List (String × Nat) × List UnitInfo
  | [] => ([], [])
  | (k, a) :: rest =>
    let r := allocUnits st (ib + 1) rest
    ((k, ib) :: r.1, readInfo st a :: r.2)

/-- The snapshot returned by `get_state`: copied grid rows and unit records
(as fresh addresses), plus the plain scalar fields. -/
structure GameStateRef where
  gridAddrs : List Nat
  unitAddrs : List (String × Nat)
  resources_collected : Nat
  game_over : Bool
  winner : Option String
deriving DecidableEq, Repr

/-- `GameEngine.get_state` of `src/game_engine.py` in the heap model: copy
every grid row and every unit record into fresh addresses and return a
snapshot referring only to the fresh copies, together with the scalar
fields (`resources_collected`, `game_over`, `winner`). -/
def get_state (st : Store) (e : EngineRef) : Store × GameStateRef :=
  let ra := allocRows st st.rows.length e.gridAddrs
  let ua := allocUnits st st.infos.length e.unitAddrs
  ({ rows := st.rows ++ ra.2, infos := st.infos ++ ua.2 },
   { gridAddrs := ra.1, unitAddrs := ua.1,
     resources_collected := e.total_resources_collected,
     game_over := decide (e.target_resources ≤ (e.total_resources_collected : Int)),
     winner := e.winner })

/-- A small concrete engine state used to instantiate the theorems below:
a 3×3 grid, unit A at (0,0) next to a resource at (1,0), water at (1,1),
unit B at (2,2). -/
def sample : GameEngine :=
  { grid_size := 3, unit_labels := ["A", "B"], target_resources := 1,
    total_resources_collected := 0, winner := none,
    grid := [["A", "r", " "], [" ", "~", " "], [" ", " ", "B"]],
    units := [("A", ⟨0, 0, 0⟩), ("B", ⟨2, 2, 0⟩)] }

/-- A concrete store holding `sample`'s three grid rows and two unit
records. -/
def sampleStore : Store :=
  { rows := [["A", "r", " "], [" ", "~", " "], [" ", " ", "B"]],
    infos := [⟨0, 0, 0⟩, ⟨2, 2, 0⟩] }

/-- The engine reference denoting `sample` inside `sampleStore`. -/
def sampleRef : EngineRef :=
  { grid_size := 3, unit_labels := ["A", "B"], target_resources := 1,
    total_resources_collected := 0, winner := none,
    gridAddrs := [0, 1, 2], unitAddrs := [("A", 0), ("B", 1)] }

end SrcEngine

namespace SpecEngine

/-- `TerrainType` of `src/map_generator.py`: `LAND = "."`, `WATER = "~"`. -/
inductive TerrainType
  | LAND
  | WATER
deriving DecidableEq, Repr

/-- `len(map_grid[0])`, as used throughout `src/map_generator.py` and the
engine callers. -/
def width (g : List (List TerrainType)) : Nat := (g.headD []).length

/-- `len(map_grid)`. -/
def height (g : List (List TerrainType)) : Nat := g.length

/-- `map_grid[y][x]` read with its bounds made explicit. -/
def terrainAt (g : List (List TerrainType)) (p : Int × Int) : Option TerrainType :=
  if 0 ≤ p.1 ∧ 0 ≤ p.2 then (g.get? p.2.toNat).bind (fun row => row.get? p.1.toNat)
  else none

/-- The candidate list built by `MapGenerator.find_random_land_positions` of
`src/map_generator.py`: all `(x, y)` with `map_grid[y][x] == LAND` and not
excluded, enumerated row-major (`y` outer, `x` inner); the random sample
drawn from it is modelled by a `choose` parameter at each call site. -/
def all_land_positions (g : List (List TerrainType))
    (excluded : List (Int × Int)) : List (Int × Int) :=
  ((List.range (height g)).flatMap (fun y =>
      (List.range (width g)).map (fun x => (Int.ofNat x, Int.ofNat y)))).filter
    (fun p => terrainAt g p = some TerrainType.LAND ∧ p ∉ excluded)

/-- Modelled from the spec: the `Unit` dataclass of the later engine
revision of `game_engine.py`, absent from `src/` (its shape is also pinned
by `src/tests/test_game_engine.py` and `src/game_server.py`):
name, `(x, y)` position, owning player id. -/
structure Unit where
  name : String
  position : Int × Int
  player_id : String
deriving DecidableEq, Repr

/-- Modelled from the spec: the `Player` record {id, name, color}. -/
structure Player where
  id : String
  name : String
  color : String
deriving DecidableEq, Repr

/-- Modelled from the spec: the deep-copied per-turn state snapshot
{map_grid, units, players, coin_positions, turn} appended to `history`. -/
structure Snapshot where
  map_grid : List (List TerrainType)
  units : List (String × Unit)
  players : List (String × Player)
  coin_positions : List (Int × Int)
  turn : Nat
deriving DecidableEq, Repr

/-- Modelled from the spec: the later `GameEngine` revision, absent from
`src/` — aggregate of map, players, units, coin positions, turn counter and
history.  `width`/`height` are derived from `map_grid` rather than stored. -/
structure GameEngine where
  map_grid : List (List TerrainType)
  players : List (String × Player)
  units : List (String × Unit)
  coin_positions : List (Int × Int)
  current_turn : Nat
  history : List Snapshot
deriving DecidableEq, Repr

/-- Modelled from the spec: the target cell one step from `p`.  "up"/"down"
move along the y-axis, "left"/"right" along the x-axis; the sign convention
is the spec's recommended one (y = 0 at the bottom, "up" increments y),
which is also the convention pinned by
`src/tests/test_game_engine.py::test_unit_movement`. -/
def step (p : Int × Int) (direction : String) : Int × Int :=
  if direction = "up" then (p.1, p.2 + 1)
  else if direction = "down" then (p.1, p.2 - 1)
  else if direction = "left" then (p.1 - 1, p.2)
  else (p.1 + 1, p.2)

/-- Bounds check for a target cell. -/
def inBoundsB (g : List (List TerrainType)) (p : Int × Int) : Bool :=
  decide (0 ≤ p.1 ∧ p.1 < (width g : Int) ∧ 0 ≤ p.2 ∧ p.2 < (height g : Int))

/-- Remove the first occurrence of `c` (Python `list.remove`; the removal
performed on `coin_positions` when a unit lands on a coin). -/
def remove_coin (l : List (Int × Int)) (c : Int × Int) : List (Int × Int) :=
  match l with
  | [] => []
  | d :: rest => if d = c then rest else d :: remove_coin rest c

/-- Modelled from the spec: `move_unit(unit_name, direction, player_id=None)`
of the later engine revision, absent from `src/`.  Fails (no mutation) on an
unknown unit; fails when `player_id` is given and does not match the unit's
owner; fails when the target is out of bounds; fails when the target's
terrain is WATER.  On success the unit's position becomes the target and a
coin at the target, if any, is removed. -/
def move_unit (s : GameEngine) (unit_name direction : String)
    (player_id : Option String) : Bool × GameEngine :=
  match alookup s.units unit_name with
  | none => (false, s)
  | some u =>
    if player_id ≠ none ∧ player_id ≠ some u.player_id then (false, s)
    else
      let target := step u.position direction
      if ¬ inBoundsB s.map_grid target then (false, s)
      else if terrainAt s.map_grid target = some TerrainType.WATER then (false, s)
      else
        (true,
         { s with
             units := amodify s.units unit_name (fun v => { v with position := target }),
             coin_positions := remove_coin s.coin_positions target })

/-- The deep copy taken by `_save_state` (pure values, so a value copy). -/
def snapshot (s : GameEngine) : Snapshot :=
  ⟨s.map_grid, s.units, s.players, s.coin_positions, s.current_turn⟩

/-- Modelled from the spec: `_save_state` appends one snapshot to the
append-only history. -/
def _save_state (s : GameEngine) : GameEngine :=
  { s with history := s.history ++ [snapshot s] }

/-- Modelled from the spec: `next_turn()` increments `current_turn` by 1 and
appends a fresh deep-copied snapshot to history; no validation. -/
def next_turn (s : GameEngine) : GameEngine :=
  _save_state { s with current_turn := s.current_turn + 1 }

/-- Modelled from the spec: the fixed color palette `add_player` cycles
through (the concrete colors are not observable in `src/`; only the cycling
by player count is specified). -/
def color_palette : List String :=
  ["#F44336", "#2196F3", "#4CAF50", "#FFC107", "#9C27B0", "#FF9800"]

/-- The sequential player id `p0, p1, …` allocated by `add_player`. -/
def pidStr (n : Nat) : String := "p" ++ toString n

/-- Modelled from the spec: `add_player(name)` allocates the next sequential
id `p0, p1, …` and a palette color cycling by player count; always
succeeds. -/
def add_player (s : GameEngine) (name : String) : String × GameEngine :=
  let pid := pidStr s.players.length
  let color := color_palette.getD (s.players.length % color_palette.length) ""
  (pid, { s with players := aset s.players pid ⟨pid, name, color⟩ })

/-- The next unused single-letter unit identifier (A, B, C, …). -/
def next_unit_label (n : Nat) : String := String.mk [Char.ofNat (65 + n)]

/-- Modelled from the spec: `add_unit(player_id)` fails on an unknown
player; otherwise samples one unoccupied LAND cell (excluding all current
unit positions) via `choose` and registers the next single-letter unit
there, owned by `player_id`; fails when no free land cell exists
(`choose` returns `none` on the empty candidate list). -/
def add_unit (choose : List (Int × Int) → Option (Int × Int))
    (s : GameEngine) (player_id : String) : Option (String × GameEngine) :=
  if ¬ acontains s.players player_id then none
  else
    match choose (all_land_positions s.map_grid (s.units.map (fun p => p.2.position))) with
    | none => none
    | some pos =>
      let uname := next_unit_label s.units.length
      some (uname, { s with units := aset s.units uname ⟨uname, pos, player_id⟩ })

/-- Modelled from the spec: place up to `n` coins, one at a time, each on a
free LAND cell excluding unit cells and already-placed coins. -/
def place_coins (choose : List (Int × Int) → Option (Int × Int)) :
    Nat → GameEngine → GameEngine
  | 0, s => s
  | n + 1, s =>
    match choose (all_land_positions s.map_grid
        (s.units.map (fun p => p.2.position) ++ s.coin_positions)) with
    | none => s
    | some c => place_coins choose n { s with coin_positions := s.coin_positions ++ [c] }

/-- Modelled from the spec: construction of the later engine revision —
given the terrain (whose random generation is folded into the `map_grid`
argument), add two default players, one unit per player on a free LAND
cell, place `num_coins` coins on free LAND cells, and append the initial
snapshot to history. -/
def init (map_grid : List (List TerrainType)) (num_coins : Nat)
    (choose : List (Int × Int) → Option (Int × Int)) : GameEngine :=
  let s0 : GameEngine :=
    { map_grid := map_grid, players := [], units := [],
      coin_positions := [], current_turn := 0, history := [] }
  let r1 := add_player s0 "Player 1"
  let r2 := add_player r1.2 "Player 2"
  let s3 := match add_unit choose r2.2 r1.1 with
            | some r => r.2
            | none => r2.2
  let s4 := match add_unit choose s3 r2.1 with
            | some r => r.2
            | none => s3
  _save_state (place_coins choose num_coins s4)

/-- A 5×5 all-LAND map. -/
def landGrid5 : List (List TerrainType) :=
  List.replicate 5 (List.replicate 5 TerrainType.LAND)

/-- A concrete engine used to instantiate the theorems below: 5×5 all-land
map, unit A at (2,2) owned by p0, unit B at (2,3) owned by p1, and a coin
at (2,3) (the cell directly above A, already occupied by B). -/
def sampleEngine : GameEngine :=
  { map_grid := landGrid5,
    players := [("p0", ⟨"p0", "Alice", "#F44336"⟩), ("p1", ⟨"p1", "Bob", "#2196F3"⟩)],
    units := [("A", ⟨"A", (2, 2), "p0"⟩), ("B", ⟨"B", (2, 3), "p1"⟩)],
    coin_positions := [(2, 3)], current_turn := 0, history := [] }

/-- The engine of end-to-end scenario A: 5×5 all-land grid with unit "A" at
(2, 2). -/
def engineA22 : GameEngine :=
  { map_grid := landGrid5, players := [("p0", ⟨"p0", "Player 1", "#F44336"⟩)],
    units := [("A", ⟨"A", (2, 2), "p0"⟩)],
    coin_positions := [], current_turn := 0, history := [] }

end SpecEngine

namespace Server

/-- A member entry of `GameRoom.players` in `src/game_server.py`
(`{"name": ..., "color": ..., "is_host": ...}`), keyed by the member's
connection client id. -/
structure RoomPlayer where
  name : String
  color : String
  is_host : Bool
deriving DecidableEq, Repr

/-- The `GameRoom` dataclass of `src/game_server.py`. -/
structure GameRoom where
  id : String
  name : String
  host_id : String
  host_name : String
  players : List (String × RoomPlayer)
  status : String
  created_at : Nat
  game : Option SpecEngine.GameEngine
deriving DecidableEq, Repr

/-- Per-connection metadata of `GameServer.clients` in `src/game_server.py`
(`{"id", "name", "room_id", "player_id", "color"}`).  The websocket object
keying the dict is modelled by the entry's index in `ServerState.clients`. -/
structure ClientInfo where
  id : String
  name : String
  room_id : Option String
  player_id : Option String
  color : Option String
deriving DecidableEq, Repr

/-- The server state the room claims are about: connected clients and the
room map (`GameServer.clients` / `GameServer.rooms`). -/
structure ServerState where
  clients : List ClientInfo
  rooms : List (String × GameRoom)
deriving DecidableEq, Repr

/-- `GameServer.unregister` of `src/game_server.py` (its state mutation; the
lobby-state broadcast and logging are I/O and not modelled): if the client
was in a room, look up `client_info["player_id"]` in `room.players`, delete
it when found, then delete the now-empty room or reassign the host to the
first remaining member; finally remove the client itself. -/
def unregister (s : ServerState) (idx : Nat) : ServerState :=
  match s.clients.get? idx with
  | none => s
  | some ci =>
    let rooms1 :=
      match ci.room_id with
      | none => s.rooms
      | some rid =>
        match alookup s.rooms rid with
        | none => s.rooms
        | some room =>
          match ci.player_id with
          | none => s.rooms
          | some pid =>
            if acontains room.players pid then
              let ps := aerase room.players pid
              if ps.isEmpty then aerase s.rooms rid
              else if room.host_id = ci.id then
                match ps.head? with
                | some (nhid, nh) =>
                  aset s.rooms rid
                    { room with
                        players := aset ps nhid { nh with is_host := true },
                        host_id := nhid, host_name := nh.name }
                | none => aerase s.rooms rid
              else aset s.rooms rid { room with players := ps }
            else s.rooms
    { clients := s.clients.eraseIdx idx, rooms := rooms1 }

/-- The `lobby_leave_room` branch of `GameServer.process_lobby_command` in
`src/game_server.py`: requires the sender to be in an existing room; deletes
the sender's entry (keyed by client id) from the room, clears the sender's
`room_id`, then deletes the now-empty room or reassigns the host to the
first remaining member. -/
def lobby_leave_room (s : ServerState) (idx : Nat) : ServerState :=
  match s.clients.get? idx with
  | none => s
  | some ci =>
    match ci.room_id with
    | none => s
    | some rid =>
      match alookup s.rooms rid with
      | none => s
      | some room =>
        let ps := if acontains room.players ci.id then aerase room.players ci.id
                  else room.players
        let clients1 := s.clients.set idx { ci with room_id := none }
        let rooms1 :=
          if ps.isEmpty then aerase s.rooms rid
          else if room.host_id = ci.id then
            match ps.head? with
            | some (nhid, nh) =>
              aset s.rooms rid
                { room with
                    players := aset ps nhid { nh with is_host := true },
                    host_id := nhid, host_name := nh.name }
            | none => aset s.rooms rid { room with players := ps }
          else aset s.rooms rid { room with players := ps }
        { clients := clients1, rooms := rooms1 }

/-- One iteration of the member loop in the `lobby_start_game` branch of
`src/game_server.py`: `add_player` with the member's name, overwrite the new
player's color with the member's chosen color, `add_unit` for the new
player; the `(client_id, game_player_id)` association is recorded only when
`add_unit` succeeds (in the source the association happens after `add_unit`
inside the `try`). -/
def startGameStep (choose : List (Int × Int) → Option (Int × Int))
    (acc : SpecEngine.GameEngine × List (String × String))
    (m : String × RoomPlayer) :
    SpecEngine.GameEngine × List (String × String) :=
  let r := SpecEngine.add_player acc.1 m.2.name
  let g1 :=
    if acontains r.2.players r.1 then
      { r.2 with players := amodify r.2.players r.1 (fun p => { p with color := m.2.color }) }
    else r.2
  match SpecEngine.add_unit choose g1 r.1 with
  | some r2 => (r2.2, acc.2 ++ [(m.1, r.1)])
  | none => (g1, acc.2)

/-- `for _ws, info in self.clients.items(): if info["id"] == player_id:
info["player_id"] = game_player_id; break` — set `player_id` on the first
client whose id matches. -/
def set_first_player_id (cls : List ClientInfo) (cid gpid : String) :
    List ClientInfo :=
  match cls with
  | [] => []
  | c :: rest =>
    if c.id = cid then { c with player_id := some gpid } :: rest
    else c :: set_first_player_id rest cid gpid

/-- Apply every `(client_id, game_player_id)` association collected by the
member loop. -/
def assoc_clients (cls : List ClientInfo) (a : List (String × String)) :
    List ClientInfo :=
  a.foldl (fun acc p => set_first_player_id acc p.1 p.2) cls

/-- The `lobby_start_game` branch of `GameServer.process_lobby_command` in
`src/game_server.py`: requires the sender to be in an existing room and to
be its host; otherwise the state is unchanged (only an error reply is
sent).  On success, constructs a fresh engine from the server's configured
map parameters (the randomly generated terrain is folded into the `grid`
argument, the sampling into `choose`), runs the member loop, applies the
player-id associations, embeds the engine and sets the room's status to
"playing". -/
def lobby_start_game (s : ServerState) (idx : Nat)
    (grid : List (List SpecEngine.TerrainType)) (num_coins : Nat)
    (choose : List (Int × Int) → Option (Int × Int)) : ServerState :=
  match s.clients.get? idx with
  | none => s
  | some ci =>
    match ci.room_id with
    | none => s
    | some rid =>
      match alookup s.rooms rid with
      | none => s
      | some room =>
        if ci.id ≠ room.host_id then s
        else
          let g0 := SpecEngine.init grid num_coins choose
          let r := room.players.foldl (startGameStep choose) (g0, [])
          { clients := assoc_clients s.clients r.2,
            rooms := aset s.rooms rid
              { room with game := some r.1, status := "playing" } }

/-- The `(client_id, game_player_id)` association list the member loop
produces when every `add_unit` succeeds: member `k` is paired with the
sequential id allocated at player count `m + k`. -/
def memberAssoc (m : Nat) : List (String × RoomPlayer) → List (String × String)
  | [] => []
  | (cid, _) :: rest => (cid, SpecEngine.pidStr m) :: memberAssoc (m + 1) rest

/-- A concrete server state: room "r1" with host connection "h" (index 0)
and member connection "m" (index 1), no game started, so both clients'
`player_id` is `None`. -/
def sampleServer : ServerState :=
  { clients := [⟨"h", "Host", some "r1", none, none⟩,
                ⟨"m", "Mem", some "r1", none, none⟩],
    rooms := [("r1", ⟨"r1", "Room", "h", "Host",
      [("h", ⟨"Host", "#F44336", true⟩), ("m", ⟨"Mem", "#2196F3", false⟩)],
      "waiting", 0, none⟩)] }

/-- Like `sampleServer`, but the clients carry game player ids ("p2", "p3"),
as they would after `lobby_start_game` ran for the room. -/
def sampleServerStarted : ServerState :=
  { clients := [⟨"h", "Host", some "r1", some "p2", none⟩,
                ⟨"m", "Mem", some "r1", some "p3", none⟩],
    rooms := sampleServer.rooms }

end Server

/-! ### Lemmas about the association-list embedding of dicts -/

theorem alookup_amodify_self {α : Type} (l : List (String × α)) (k : String)
    (f : α → α) : alookup (amodify l k f) k = (alookup l k).map f := by
  induction l with
  | nil => simp [alookup, amodify]
  | cons p rest ih =>
    obtain ⟨k2, v⟩ := p
    by_cases h : k2 = k
    · simp [alookup, amodify, h]
    · simp [alookup, amodify, h, ih]

theorem alookup_amodify_ne {α : Type} (l : List (String × α)) (k k2 : String)
    (f : α → α) (h : k2 ≠ k) : alookup (amodify l k f) k2 = alookup l k2 := by
  induction l with
  | nil => simp [amodify]
  | cons p rest ih =>
    obtain ⟨k3, v⟩ := p
    by_cases h3 : k3 = k
    · subst h3
      simp [alookup, amodify, Ne.symm h]
    · by_cases h4 : k3 = k2 <;> simp [alookup, amodify, h3, h4, h, ih]

theorem alookup_aset_self {α : Type} (l : List (String × α)) (k : String)
    (v : α) : alookup (aset l k v) k = some v := by
  induction l with
  | nil => simp [aset, alookup]
  | cons p rest ih =>
    obtain ⟨k2, v2⟩ := p
    by_cases h : k2 = k <;> simp [aset, alookup, h, ih]

theorem alookup_aset_ne {α : Type} (l : List (String × α)) (k k2 : String)
    (v : α) (h : k2 ≠ k) : alookup (aset l k v) k2 = alookup l k2 := by
  induction l with
  | nil => simp [aset, alookup, Ne.symm h]
  | cons p rest ih =>
    obtain ⟨k3, v2⟩ := p
    by_cases h3 : k3 = k
    · subst h3
      simp [aset, alookup, Ne.symm h]
    · by_cases h4 : k3 = k2 <;> simp [aset, alookup, h3, h4, h, ih]

theorem aset_eq_append {α : Type} (l : List (String × α)) (k : String) (v : α)
    (h : acontains l k = false) : aset l k v = l ++ [(k, v)] := by
  induction l with
  | nil => simp [aset]
  | cons p rest ih =>
    obtain ⟨k2, v2⟩ := p
    by_cases h2 : k2 = k
    · subst h2
      simp [acontains, alookup] at h
    · simp only [acontains, alookup, h2, if_false] at h
      simp [aset, h2, ih h]

theorem length_amodify {α : Type} (l : List (String × α)) (k : String)
    (f : α → α) : (amodify l k f).length = l.length := by
  induction l with
  | nil => simp [amodify]
  | cons p rest ih =>
    obtain ⟨k2, v⟩ := p
    by_cases h : k2 = k <;> simp [amodify, h, ih]

theorem map_fst_amodify {α : Type} (l : List (String × α)) (k : String)
    (f : α → α) : (amodify l k f).map Prod.fst = l.map Prod.fst := by
  induction l with
  | nil => simp [amodify]
  | cons p rest ih =>
    obtain ⟨k2, v⟩ := p
    by_cases h : k2 = k <;> simp [amodify, h, ih]

theorem acontains_iff_mem_fst {α : Type} (l : List (String × α)) (k : String) :
    acontains l k = true ↔ k ∈ l.map Prod.fst := by
  induction l with
  | nil => simp [acontains, alookup]
  | cons p rest ih =>
    obtain ⟨k2, v⟩ := p
    by_cases h : k2 = k
    · subst h
      simp [acontains, alookup]
    · have hk : ¬ k = k2 := fun e => h e.symm
      simp only [List.map_cons, List.mem_cons, hk, false_or]
      rw [← ih]
      simp [acontains, alookup, h]

/-! ### C8: sign convention of "up" -/

/-- C8: in an engine whose grid is a 5×5 all-land map with unit "A" at
(2, 2), `move_unit("A", "up")` returns true and afterwards A's position is
(2, 3): "up" increments the y-coordinate, matching the convention that
y = 0 is at the bottom of the grid. -/
theorem c8_up_increments_y :
    (SpecEngine.move_unit SpecEngine.engineA22 "A" "up" none).1 = true ∧
    alookup (SpecEngine.move_unit SpecEngine.engineA22 "A" "up" none).2.units "A" =
      some ⟨"A", (2, 3), "p0"⟩ := by
  constructor <;> decide

/-! ### C2: ownership enforcement -/

/-- C2: a `move_unit` request tagged with player A's id on a unit owned by
a different player returns false and mutates nothing, regardless of the
direction and target cell. -/
theorem c2_ownership_enforced (s : SpecEngine.GameEngine)
    (unit_name direction pidA : String) (u : SpecEngine.Unit)
    (hu : alookup s.units unit_name = some u) (hne : pidA ≠ u.player_id) :
    SpecEngine.move_unit s unit_name direction (some pidA) = (false, s) := by
  unfold SpecEngine.move_unit
  rw [hu]
  simp [hne]

/-- Witness for C2: in `sampleEngine`, unit "B" is owned by "p1", and a
move request on it tagged "p0" fails without mutation even though the
target cell would be valid. -/
theorem c2_ownership_enforced_witness :
    SpecEngine.move_unit SpecEngine.sampleEngine "B" "up" (some "p0") =
      (false, SpecEngine.sampleEngine) :=
  c2_ownership_enforced SpecEngine.sampleEngine "B" "up" "p0"
    ⟨"B", (2, 3), "p1"⟩ (by decide) (by decide)

/-! ### C1: the move validator checks only bounds and terrain -/

theorem spec_step_ne (p : Int × Int) (d : String) : SpecEngine.step p d ≠ p := by
  unfold SpecEngine.step
  split_ifs <;> intro h <;> cases p <;> simp [Prod.ext_iff] at h <;> omega

/-- C1: for every unit `u` (looked up by name) and direction, a `move_unit`
call without a player id succeeds and changes `u`'s position to the target
cell if and only if the target (one step from `u`) is within grid bounds and
is not WATER; the validator consults nothing else — in particular not
whether another unit occupies the target, so a move onto an occupied cell
still succeeds (see the witness) — and in every other case the call returns
false and the whole state is unchanged. -/
theorem c1_move_validator_checks_bounds_and_terrain_only
    (s : SpecEngine.GameEngine) (unit_name direction : String)
    (u : SpecEngine.Unit) (hu : alookup s.units unit_name = some u) :
    ((SpecEngine.move_unit s unit_name direction none).1 = true ↔
      (SpecEngine.inBoundsB s.map_grid (SpecEngine.step u.position direction) = true ∧
       SpecEngine.terrainAt s.map_grid (SpecEngine.step u.position direction) ≠
         some SpecEngine.TerrainType.WATER)) ∧
    ((SpecEngine.move_unit s unit_name direction none).1 = true →
      alookup (SpecEngine.move_unit s unit_name direction none).2.units unit_name =
        some { u with position := SpecEngine.step u.position direction } ∧
      SpecEngine.step u.position direction ≠ u.position) ∧
    ((SpecEngine.move_unit s unit_name direction none).1 = false →
      (SpecEngine.move_unit s unit_name direction none).2 = s) := by
  by_cases hb : SpecEngine.inBoundsB s.map_grid (SpecEngine.step u.position direction) = true
  · by_cases hw : SpecEngine.terrainAt s.map_grid (SpecEngine.step u.position direction) =
        some SpecEngine.TerrainType.WATER
    · refine ⟨?_, ?_, ?_⟩ <;> simp [SpecEngine.move_unit, hu, hb, hw]
    · refine ⟨?_, ?_, ?_⟩ <;> simp [SpecEngine.move_unit, hu, hb, hw]
      constructor
      · rw [alookup_amodify_self, hu]
        rfl
      · exact spec_step_ne u.position direction
  · refine ⟨?_, ?_, ?_⟩ <;> simp [SpecEngine.move_unit, hu, hb]

/-- Witness for C1: in `sampleEngine` the cell (2, 3) above unit A is
occupied by unit B (and holds a coin), yet A's move "up" succeeds and A
co-locates with B — the validator ignored occupancy. -/
theorem c1_move_validator_checks_bounds_and_terrain_only_witness :
    (SpecEngine.move_unit SpecEngine.sampleEngine "A" "up" none).1 = true ∧
    alookup (SpecEngine.move_unit SpecEngine.sampleEngine "A" "up" none).2.units "A" =
      some ⟨"A", (2, 3), "p0"⟩ ∧
    alookup SpecEngine.sampleEngine.units "B" = some ⟨"B", (2, 3), "p1"⟩ := by
  have h := c1_move_validator_checks_bounds_and_terrain_only SpecEngine.sampleEngine
    "A" "up" ⟨"A", (2, 2), "p0"⟩ (by decide)
  have hsucc : (SpecEngine.move_unit SpecEngine.sampleEngine "A" "up" none).1 = true :=
    h.1.mpr (by decide)
  exact ⟨hsucc, (h.2.1 hsucc).1, by decide⟩

/-! ### C3: coin collection is at-most-once per coin -/

theorem remove_coin_not_mem (l : List (Int × Int)) (c : Int × Int)
    (hnd : l.Nodup) : c ∉ SpecEngine.remove_coin l c := by
  induction l with
  | nil => simp [SpecEngine.remove_coin]
  | cons d rest ih =>
    by_cases h : d = c
    · subst h
      simpa [SpecEngine.remove_coin] using (List.nodup_cons.mp hnd).1
    · simp only [SpecEngine.remove_coin, h, if_false, List.mem_cons]
      push_neg
      exact ⟨fun e => h e.symm, ih (List.nodup_cons.mp hnd).2⟩

theorem remove_coin_length (l : List (Int × Int)) (c : Int × Int)
    (hm : c ∈ l) : (SpecEngine.remove_coin l c).length + 1 = l.length := by
  induction l with
  | nil => simp at hm
  | cons d rest ih =>
    by_cases h : d = c
    · simp [SpecEngine.remove_coin, h]
    · have hm2 : c ∈ rest := by
        rcases List.mem_cons.mp hm with h2 | h2
        · exact absurd h2.symm h
        · exact h2
      simp [SpecEngine.remove_coin, h, ih hm2]

theorem remove_coin_count_ne (l : List (Int × Int)) (c d : Int × Int)
    (h : d ≠ c) : (SpecEngine.remove_coin l c).count d = l.count d := by
  induction l with
  | nil => simp [SpecEngine.remove_coin]
  | cons e rest ih =>
    by_cases he : e = c
    · subst he
      simp [SpecEngine.remove_coin, List.count_cons, h, Ne.symm h]
    · simp [SpecEngine.remove_coin, he, List.count_cons, ih]

/-- C3: whenever `move_unit` succeeds and the unit's new position equals a
coin position, that exact (x, y) no longer appears in the coin collection
afterwards, the total coin count strictly decreases by exactly one, and
every other coin's multiplicity is untouched (each coin is removed at most
once); coin positions are pairwise distinct, as placed by construction. -/
theorem c3_coin_collected_exactly_once (s : SpecEngine.GameEngine)
    (unit_name direction : String) (pid : Option String) (u : SpecEngine.Unit)
    (hu : alookup s.units unit_name = some u)
    (hnd : s.coin_positions.Nodup)
    (hsucc : (SpecEngine.move_unit s unit_name direction pid).1 = true)
    (hcoin : SpecEngine.step u.position direction ∈ s.coin_positions) :
    SpecEngine.step u.position direction ∉
      (SpecEngine.move_unit s unit_name direction pid).2.coin_positions ∧
    (SpecEngine.move_unit s unit_name direction pid).2.coin_positions.length + 1 =
      s.coin_positions.length ∧
    ∀ c, c ≠ SpecEngine.step u.position direction →
      (SpecEngine.move_unit s unit_name direction pid).2.coin_positions.count c =
        s.coin_positions.count c := by
  have hc : (SpecEngine.move_unit s unit_name direction pid).2.coin_positions =
      SpecEngine.remove_coin s.coin_positions (SpecEngine.step u.position direction) := by
    unfold SpecEngine.move_unit at hsucc ⊢
    rw [hu] at hsucc ⊢
    by_cases hown : pid ≠ none ∧ pid ≠ some u.player_id
    · simp [hown] at hsucc
    · by_cases hb : SpecEngine.inBoundsB s.map_grid
          (SpecEngine.step u.position direction) = true
      · by_cases hw : SpecEngine.terrainAt s.map_grid
            (SpecEngine.step u.position direction) = some SpecEngine.TerrainType.WATER
        · simp [hown, hb, hw] at hsucc
        · simp [hown, hb, hw]
      · simp [hown, hb] at hsucc
  rw [hc]
  exact ⟨remove_coin_not_mem _ _ hnd, remove_coin_length _ _ hcoin,
    fun c hcne => remove_coin_count_ne _ _ _ hcne⟩

/-- Witness for C3: in `sampleEngine`, A moves up onto the coin at (2, 3);
the coin disappears, the count drops from 1 to 0, and no other cell's
count changes. -/
theorem c3_coin_collected_exactly_once_witness :
    SpecEngine.step ((2 : Int), (2 : Int)) "up" ∉
      (SpecEngine.move_unit SpecEngine.sampleEngine "A" "up" none).2.coin_positions ∧
    (SpecEngine.move_unit SpecEngine.sampleEngine "A" "up" none).2.coin_positions.length + 1 =
      SpecEngine.sampleEngine.coin_positions.length ∧
    ∀ c, c ≠ SpecEngine.step ((2 : Int), (2 : Int)) "up" →
      (SpecEngine.move_unit SpecEngine.sampleEngine "A" "up" none).2.coin_positions.count c =
        SpecEngine.sampleEngine.coin_positions.count c :=
  c3_coin_collected_exactly_once SpecEngine.sampleEngine "A" "up" none
    ⟨"A", (2, 2), "p0"⟩ (by decide) (by decide) (by decide) (by decide)

/-! ### C4: turn counter and history -/

theorem spec_move_unit_frame (s : SpecEngine.GameEngine) (name dir : String)
    (pid : Option String) :
    (SpecEngine.move_unit s name dir pid).2.current_turn = s.current_turn ∧
    (SpecEngine.move_unit s name dir pid).2.history = s.history ∧
    (SpecEngine.move_unit s name dir pid).2.map_grid = s.map_grid ∧
    (SpecEngine.move_unit s name dir pid).2.players = s.players := by
  unfold SpecEngine.move_unit
  cases hu : alookup s.units name with
  | none => exact ⟨rfl, rfl, rfl, rfl⟩
  | some u =>
    by_cases hown : pid ≠ none ∧ pid ≠ some u.player_id
    · simp [hown]
    · by_cases hb : SpecEngine.inBoundsB s.map_grid (SpecEngine.step u.position dir) = true
      · by_cases hw : SpecEngine.terrainAt s.map_grid (SpecEngine.step u.position dir) =
            some SpecEngine.TerrainType.WATER
        · simp [hown, hb, hw]
        · simp [hown, hb, hw]
      · simp [hown, hb]

theorem spec_add_unit_frame (ch : List (Int × Int) → Option (Int × Int))
    (s : SpecEngine.GameEngine) (pid : String) (r : String × SpecEngine.GameEngine)
    (h : SpecEngine.add_unit ch s pid = some r) :
    r.2.current_turn = s.current_turn ∧
    r.2.history = s.history ∧
    r.2.map_grid = s.map_grid ∧
    r.2.players = s.players ∧
    r.2.coin_positions = s.coin_positions ∧
    r.1 = SpecEngine.next_unit_label s.units.length ∧
    ∃ pos, r.2.units = aset s.units (SpecEngine.next_unit_label s.units.length)
      ⟨SpecEngine.next_unit_label s.units.length, pos, pid⟩ := by
  unfold SpecEngine.add_unit at h
  by_cases hc : ¬ acontains s.players pid = true
  · simp [hc] at h
  · rw [if_neg hc] at h
    cases hch : ch (SpecEngine.all_land_positions s.map_grid
        (s.units.map (fun p => p.2.position))) with
    | none => rw [hch] at h; simp at h
    | some pos =>
      rw [hch] at h
      simp only [Option.some.injEq] at h
      subst h
      exact ⟨rfl, rfl, rfl, rfl, rfl, rfl, pos, rfl⟩

theorem spec_matchAddUnit_frame (ch : List (Int × Int) → Option (Int × Int))
    (s : SpecEngine.GameEngine) (pid : String) :
    (match SpecEngine.add_unit ch s pid with
     | some r => r.2
     | none => s).current_turn = s.current_turn ∧
    (match SpecEngine.add_unit ch s pid with
     | some r => r.2
     | none => s).history = s.history := by
  cases h : SpecEngine.add_unit ch s pid with
  | none => exact ⟨rfl, rfl⟩
  | some r => exact ⟨(spec_add_unit_frame ch s pid r h).1, (spec_add_unit_frame ch s pid r h).2.1⟩

theorem spec_place_coins_frame (ch : List (Int × Int) → Option (Int × Int))
    (n : Nat) (s : SpecEngine.GameEngine) :
    (SpecEngine.place_coins ch n s).current_turn = s.current_turn ∧
    (SpecEngine.place_coins ch n s).history = s.history ∧
    (SpecEngine.place_coins ch n s).map_grid = s.map_grid ∧
    (SpecEngine.place_coins ch n s).players = s.players ∧
    (SpecEngine.place_coins ch n s).units = s.units := by
  induction n generalizing s with
  | zero => exact ⟨rfl, rfl, rfl, rfl, rfl⟩
  | succ n ih =>
    unfold SpecEngine.place_coins
    cases hch : ch (SpecEngine.all_land_positions s.map_grid
        (s.units.map (fun p => p.2.position) ++ s.coin_positions)) with
    | none => exact ⟨rfl, rfl, rfl, rfl, rfl⟩
    | some c => exact ih _

theorem spec_init_len (g : List (List SpecEngine.TerrainType)) (n : Nat)
    (ch : List (Int × Int) → Option (Int × Int)) :
    (SpecEngine.init g n ch).history.length = 1 ∧
    (SpecEngine.init g n ch).current_turn = 0 := by
  simp only [SpecEngine.init]
  constructor
  · rw [show ∀ s : SpecEngine.GameEngine, (SpecEngine._save_state s).history =
        s.history ++ [SpecEngine.snapshot s] from fun s => rfl]
    rw [(spec_place_coins_frame ch n _).2.1, (spec_matchAddUnit_frame ch _ _).2,
      (spec_matchAddUnit_frame ch _ _).2]
    rfl
  · rw [show ∀ s : SpecEngine.GameEngine, (SpecEngine._save_state s).current_turn =
        s.current_turn from fun s => rfl]
    rw [(spec_place_coins_frame ch n _).1, (spec_matchAddUnit_frame ch _ _).1,
      (spec_matchAddUnit_frame ch _ _).1]
    rfl

/-- C4: `next_turn()` always succeeds, increments `current_turn` by exactly
1 and appends exactly one deep-copied snapshot to the append-only history,
so history length equals `current_turn + 1` right after each `next_turn()`
given it held before (`_save_state` runs once at construction — the `init`
conjunct — and once per `next_turn`); no other engine operation
(`move_unit`, `add_player`, `add_unit`) changes `current_turn`. -/
theorem c4_next_turn_monotonic_history (s : SpecEngine.GameEngine)
    (hlen : s.history.length = s.current_turn + 1)
    (g : List (List SpecEngine.TerrainType)) (ncoins : Nat)
    (ch : List (Int × Int) → Option (Int × Int))
    (name dir : String) (pid : Option String) (nm pid2 : String)
    (r : String × SpecEngine.GameEngine)
    (hr : SpecEngine.add_unit ch s pid2 = some r) :
    (SpecEngine.next_turn s).current_turn = s.current_turn + 1 ∧
    (SpecEngine.next_turn s).history =
      s.history ++ [SpecEngine.snapshot { s with current_turn := s.current_turn + 1 }] ∧
    (SpecEngine.next_turn s).history.length = (SpecEngine.next_turn s).current_turn + 1 ∧
    (SpecEngine.init g ncoins ch).history.length =
      (SpecEngine.init g ncoins ch).current_turn + 1 ∧
    (SpecEngine.move_unit s name dir pid).2.current_turn = s.current_turn ∧
    (SpecEngine.add_player s nm).2.current_turn = s.current_turn ∧
    r.2.current_turn = s.current_turn := by
  refine ⟨rfl, rfl, ?_, ?_, (spec_move_unit_frame s name dir pid).1, rfl,
    (spec_add_unit_frame ch s pid2 r hr).1⟩
  · simp only [SpecEngine.next_turn, SpecEngine._save_state, List.length_append,
      List.length_singleton]
    omega
  · rw [(spec_init_len g ncoins ch).1, (spec_init_len g ncoins ch).2]

/-- Witness for C4, at the freshly constructed engine on the 5×5 all-land
map (whose history length is 1 = current_turn + 1). -/
theorem c4_next_turn_monotonic_history_witness :
    (SpecEngine.next_turn (SpecEngine.init SpecEngine.landGrid5 1 List.head?)).current_turn =
      (SpecEngine.init SpecEngine.landGrid5 1 List.head?).current_turn + 1 ∧
    (SpecEngine.next_turn (SpecEngine.init SpecEngine.landGrid5 1 List.head?)).history =
      (SpecEngine.init SpecEngine.landGrid5 1 List.head?).history ++
        [SpecEngine.snapshot { SpecEngine.init SpecEngine.landGrid5 1 List.head? with
          current_turn := (SpecEngine.init SpecEngine.landGrid5 1 List.head?).current_turn + 1 }] ∧
    (SpecEngine.next_turn (SpecEngine.init SpecEngine.landGrid5 1 List.head?)).history.length =
      (SpecEngine.next_turn (SpecEngine.init SpecEngine.landGrid5 1 List.head?)).current_turn + 1 ∧
    (SpecEngine.init SpecEngine.landGrid5 1 List.head?).history.length =
      (SpecEngine.init SpecEngine.landGrid5 1 List.head?).current_turn + 1 ∧
    (SpecEngine.move_unit (SpecEngine.init SpecEngine.landGrid5 1 List.head?) "A" "up"
      none).2.current_turn =
      (SpecEngine.init SpecEngine.landGrid5 1 List.head?).current_turn ∧
    (SpecEngine.add_player (SpecEngine.init SpecEngine.landGrid5 1 List.head?)
      "X").2.current_turn =
      (SpecEngine.init SpecEngine.landGrid5 1 List.head?).current_turn ∧
    ((SpecEngine.add_unit List.head? (SpecEngine.init SpecEngine.landGrid5 1 List.head?)
        "p0").getD ("", SpecEngine.init SpecEngine.landGrid5 1 List.head?)).2.current_turn =
      (SpecEngine.init SpecEngine.landGrid5 1 List.head?).current_turn :=
  c4_next_turn_monotonic_history (SpecEngine.init SpecEngine.landGrid5 1 List.head?)
    (by decide) SpecEngine.landGrid5 1 List.head? "A" "up" none "X" "p0"
    ((SpecEngine.add_unit List.head? (SpecEngine.init SpecEngine.landGrid5 1 List.head?)
        "p0").getD ("", SpecEngine.init SpecEngine.landGrid5 1 List.head?))
    (by decide)

/-! ### C7: invalid moves fail idempotently -/

/-- C7: for every unit name and every invalid move request — unknown unit,
out-of-bounds target, or blocked target cell (water "~" or a cell occupied
by a unit letter) — `move_unit` returns false and leaves the entire game
state unchanged, and repeating the same call any number of times keeps the
state fixed (hence returns false each time). -/
theorem c7_invalid_move_idempotent_failure (s : SrcEngine.GameEngine)
    (unit direction : String)
    (hinv : alookup s.units unit = none ∨
      ∃ u, alookup s.units unit = some u ∧
        (¬ (0 ≤ (SrcEngine.dirTarget u.x u.y direction).1 ∧
            (SrcEngine.dirTarget u.x u.y direction).1 < (s.grid_size : Int) ∧
            0 ≤ (SrcEngine.dirTarget u.x u.y direction).2 ∧
            (SrcEngine.dirTarget u.x u.y direction).2 < (s.grid_size : Int)) ∨
         SrcEngine.gridGet s.grid (SrcEngine.dirTarget u.x u.y direction).1
            (SrcEngine.dirTarget u.x u.y direction).2 = "~" ∨
         s.unit_labels.contains (SrcEngine.gridGet s.grid
            (SrcEngine.dirTarget u.x u.y direction).1
            (SrcEngine.dirTarget u.x u.y direction).2) = true)) :
    SrcEngine.move_unit s unit direction = (false, s) ∧
    ∀ n : Nat, (fun st => (SrcEngine.move_unit st unit direction).2)^[n] s = s := by
  have hv : SrcEngine.is_valid_move s unit direction = false := by
    unfold SrcEngine.is_valid_move
    rcases hinv with h | ⟨u, hu, hcase⟩
    · rw [h]
    · rw [hu]
      dsimp only
      rcases hcase with hb | hw | hl <;> split_ifs with h1 h2 h3 <;>
        first | rfl | (exfalso; tauto)
  have hz : SrcEngine.move_unit s unit direction = (false, s) := by
    simp [SrcEngine.move_unit, hv]
  refine ⟨hz, ?_⟩
  intro n
  induction n with
  | zero => rfl
  | succ n ih =>
    rw [Function.iterate_succ_apply,
      show (SrcEngine.move_unit s unit direction).2 = s from by rw [hz]]
    exact ih

/-- Witness for C7: in `sample`, A at (0, 0) moving "up" targets (0, -1),
out of bounds; the call fails without mutation and three repetitions leave
the state fixed. -/
theorem c7_invalid_move_idempotent_failure_witness :
    SrcEngine.move_unit SrcEngine.sample "A" "up" = (false, SrcEngine.sample) ∧
    (fun st => (SrcEngine.move_unit st "A" "up").2)^[3] SrcEngine.sample =
      SrcEngine.sample := by
  have h := c7_invalid_move_idempotent_failure SrcEngine.sample "A" "up"
    (Or.inr ⟨⟨0, 0, 0⟩, by decide, Or.inl (by decide)⟩)
  exact ⟨h.1, h.2 3⟩

/-! ### C9: total resources invariant and game-over condition -/

theorem src_resourceSum_amodify_preserve (l : List (String × SrcEngine.UnitInfo))
    (k : String) (f : SrcEngine.UnitInfo → SrcEngine.UnitInfo)
    (hf : ∀ v, (f v).resources = v.resources) :
    SrcEngine.resourceSum (amodify l k f) = SrcEngine.resourceSum l := by
  induction l with
  | nil => rfl
  | cons p rest ih =>
    obtain ⟨k2, v⟩ := p
    by_cases h : k2 = k
    · simp [amodify, h, SrcEngine.resourceSum, hf]
    · simp [amodify, h, SrcEngine.resourceSum] at ih ⊢
      omega

theorem src_resourceSum_amodify_add_one (l : List (String × SrcEngine.UnitInfo))
    (k : String) (h : (alookup l k).isSome = true) :
    SrcEngine.resourceSum
        (amodify l k (fun v => { v with resources := v.resources + 1 })) =
      SrcEngine.resourceSum l + 1 := by
  induction l with
  | nil => simp [alookup] at h
  | cons p rest ih =>
    obtain ⟨k2, v⟩ := p
    by_cases h2 : k2 = k
    · simp [amodify, h2, SrcEngine.resourceSum]
      omega
    · simp only [alookup, h2, if_false] at h
      simp [amodify, h2, SrcEngine.resourceSum] at ih ⊢
      have := ih h
      omega

theorem src_move_unit_inv (s : SrcEngine.GameEngine) (unit direction : String)
    (h : SrcEngine.resourceSum s.units = s.total_resources_collected) :
    SrcEngine.resourceSum (SrcEngine.move_unit s unit direction).2.units =
      (SrcEngine.move_unit s unit direction).2.total_resources_collected := by
  unfold SrcEngine.move_unit
  by_cases hv : SrcEngine.is_valid_move s unit direction = true
  · cases hu : alookup s.units unit with
    | none => simpa [hv, hu] using h
    | some u =>
      by_cases hr : SrcEngine.gridGet s.grid (SrcEngine.dirTarget u.x u.y direction).1
          (SrcEngine.dirTarget u.x u.y direction).2 = "r"
      · simp only [hv, hu, hr, not_true, ite_false, ite_true, if_false, if_true,
          not_true_eq_false]
        rw [src_resourceSum_amodify_add_one, src_resourceSum_amodify_preserve, h]
        · intro v
          rfl
        · rw [alookup_amodify_self, hu]
          rfl
      · simp only [hv, hu, hr, not_true, ite_false, ite_true, if_false, if_true,
          not_true_eq_false, not_false_eq_true]
        rw [src_resourceSum_amodify_preserve]
        · exact h
        · intro v
          rfl
  · simp only [Bool.not_eq_true] at hv
    simpa [SrcEngine.move_unit, hv] using h

theorem src_collect_resource_inv (s : SrcEngine.GameEngine) (unit : String)
    (h : SrcEngine.resourceSum s.units = s.total_resources_collected) :
    SrcEngine.resourceSum (SrcEngine.collect_resource s unit).2.units =
      (SrcEngine.collect_resource s unit).2.total_resources_collected := by
  unfold SrcEngine.collect_resource
  cases hu : alookup s.units unit with
  | none => exact h
  | some u =>
    by_cases hr : SrcEngine.gridGet s.grid u.x u.y = "r"
    · simp only [hr, if_true]
      rw [src_resourceSum_amodify_add_one, h]
      rw [hu]
      rfl
    · simp only [hr, if_false]
      exact h

theorem src_process_command_inv (s : SrcEngine.GameEngine) (c : String)
    (h : SrcEngine.resourceSum s.units = s.total_resources_collected) :
    SrcEngine.resourceSum (SrcEngine.process_command s c).2.units =
      (SrcEngine.process_command s c).2.total_resources_collected := by
  unfold SrcEngine.process_command
  cases hp : SrcEngine.pySplit (c.trim.toLower) with
  | nil => exact h
  | cons u rest =>
    cases rest with
    | nil => exact h
    | cons d rest2 =>
      dsimp only
      by_cases h1 : (alookup s.units u.toUpper).isNone
      · simp only [h1, if_true]
        exact h
      · by_cases h2 : ¬ (d.toLower = "up" ∨ d.toLower = "down" ∨ d.toLower = "left"
            ∨ d.toLower = "right")
        · simp only [h1, h2, if_false, if_true]
          exact h
        · simp only [h1, h2, if_false]
          exact src_move_unit_inv s u.toUpper d.toLower h

/-- C9: in every state reachable by `move_unit`, `collect_resource` and
`process_command` from a freshly constructed engine,
`total_resources_collected` equals the sum of the per-unit resource
counters, and `is_game_over()` returns true iff the total reached
`target_resources`. -/
theorem c9_total_equals_sum_and_game_over (s : SrcEngine.GameEngine)
    (h : SrcEngine.Reachable s) :
    SrcEngine.resourceSum s.units = s.total_resources_collected ∧
    (SrcEngine.is_game_over s = true ↔
      s.target_resources ≤ (s.total_resources_collected : Int)) := by
  refine ⟨?_, by simp [SrcEngine.is_game_over]⟩
  induction h with
  | fresh s h0 hu =>
    rw [h0]
    unfold SrcEngine.resourceSum
    rw [List.sum_eq_zero]
    intro x hx
    simp only [List.mem_map] at hx
    obtain ⟨p, hp, hpx⟩ := hx
    rw [← hpx]
    exact hu p hp
  | move s unit direction hr ih => exact src_move_unit_inv s unit direction ih
  | collect s unit hr ih => exact src_collect_resource_inv s unit ih
  | cmd s c hr ih => exact src_process_command_inv s c ih

/-- Witness for C9, at the state reached from `sample` by the resource
collecting move "A right". -/
theorem c9_total_equals_sum_and_game_over_witness :
    SrcEngine.resourceSum (SrcEngine.move_unit SrcEngine.sample "A" "right").2.units =
      (SrcEngine.move_unit SrcEngine.sample "A" "right").2.total_resources_collected ∧
    (SrcEngine.is_game_over (SrcEngine.move_unit SrcEngine.sample "A" "right").2 = true ↔
      (SrcEngine.move_unit SrcEngine.sample "A" "right").2.target_resources ≤
        ((SrcEngine.move_unit SrcEngine.sample "A" "right").2.total_resources_collected : Int)) :=
  c9_total_equals_sum_and_game_over _
    (SrcEngine.Reachable.move SrcEngine.sample "A" "right"
      (SrcEngine.Reachable.fresh SrcEngine.sample rfl (by decide)))

/-! ### C10: `get_state` hands out fresh copies and never mutates the engine -/

theorem getD_append_left' {α : Type} (l l2 : List α) (n : Nat) (h : n < l.length)
    (d : α) : (l ++ l2).getD n d = l.getD n d := by
  simp [List.getD_eq_getElem?_getD, List.getElem?_append_left h]

theorem getD_append_full {α : Type} (l l2 : List α) (d : α) :
    (l ++ l2).getD l.length d = l2.getD 0 d := by
  simp [List.getD_eq_getElem?_getD, List.getElem?_append_right (Nat.le_refl _)]

theorem getD_set_ne' {α : Type} (l : List α) (i j : Nat) (v : α) (h : i ≠ j)
    (d : α) : (l.set i v).getD j d = l.getD j d := by
  simp [List.getD_eq_getElem?_getD, List.getElem?_set_ne h]

theorem src_allocRows_snd (st : SrcEngine.Store) (rb : Nat) (addrs : List Nat) :
    (SrcEngine.allocRows st rb addrs).2 = addrs.map (SrcEngine.readRow st) := by
  induction addrs generalizing rb with
  | nil => rfl
  | cons a rest ih => simp [SrcEngine.allocRows, ih]

theorem src_allocRows_fst_ge (st : SrcEngine.Store) (rb : Nat) (addrs : List Nat) :
    ∀ b ∈ (SrcEngine.allocRows st rb addrs).1, rb ≤ b := by
  induction addrs generalizing rb with
  | nil => simp [SrcEngine.allocRows]
  | cons a rest ih =>
    intro b hb
    simp only [SrcEngine.allocRows, List.mem_cons] at hb
    rcases hb with rfl | hb
    · exact Nat.le_refl _
    · exact Nat.le_of_succ_le (ih (rb + 1) b hb)

theorem src_allocRows_readback (st : SrcEngine.Store) (addrs : List Nat) :
    ∀ (pre : List (List String)) (st2 : SrcEngine.Store),
      st2.rows = pre ++ (SrcEngine.allocRows st pre.length addrs).2 →
      (SrcEngine.allocRows st pre.length addrs).1.map (SrcEngine.readRow st2) =
        (SrcEngine.allocRows st pre.length addrs).2 := by
  induction addrs with
  | nil => intro pre st2 h; rfl
  | cons a rest ih =>
    intro pre st2 h
    simp only [SrcEngine.allocRows, List.map_cons] at h ⊢
    have hlen : (pre ++ [SrcEngine.readRow st a]).length = pre.length + 1 := by simp
    have htail := ih (pre ++ [SrcEngine.readRow st a]) st2 ?_
    · rw [hlen] at htail
      rw [htail]
      have hhead : SrcEngine.readRow st2 pre.length = SrcEngine.readRow st a := by
        unfold SrcEngine.readRow
        rw [h, getD_append_full]
        rfl
      rw [hhead]
    · rw [hlen, List.append_assoc]
      exact h

theorem src_allocUnits_snd (st : SrcEngine.Store) (ib : Nat)
    (ua : List (String × Nat)) :
    (SrcEngine.allocUnits st ib ua).2 = ua.map (fun p => SrcEngine.readInfo st p.2) := by
  induction ua generalizing ib with
  | nil => rfl
  | cons q rest ih =>
    obtain ⟨k, a⟩ := q
    simp [SrcEngine.allocUnits, ih]

theorem src_allocUnits_fst_ge (st : SrcEngine.Store) (ib : Nat)
    (ua : List (String × Nat)) :
    ∀ q ∈ (SrcEngine.allocUnits st ib ua).1, ib ≤ q.2 := by
  induction ua generalizing ib with
  | nil => simp [SrcEngine.allocUnits]
  | cons q rest ih =>
    obtain ⟨k, a⟩ := q
    intro q2 hq
    simp only [SrcEngine.allocUnits, List.mem_cons] at hq
    rcases hq with rfl | hq
    · exact Nat.le_refl _
    · exact Nat.le_of_succ_le (ih (ib + 1) q2 hq)

theorem src_allocUnits_readback (st : SrcEngine.Store) (ua : List (String × Nat)) :
    ∀ (pre : List SrcEngine.UnitInfo) (st2 : SrcEngine.Store),
      st2.infos = pre ++ (SrcEngine.allocUnits st pre.length ua).2 →
      (SrcEngine.allocUnits st pre.length ua).1.map
          (fun q => (q.1, SrcEngine.readInfo st2 q.2)) =
        ua.map (fun p => (p.1, SrcEngine.readInfo st p.2)) := by
  induction ua with
  | nil => intro pre st2 h; rfl
  | cons q rest ih =>
    obtain ⟨k, a⟩ := q
    intro pre st2 h
    simp only [SrcEngine.allocUnits, List.map_cons] at h ⊢
    have hlen : (pre ++ [SrcEngine.readInfo st a]).length = pre.length + 1 := by simp
    have htail := ih (pre ++ [SrcEngine.readInfo st a]) st2 ?_
    · rw [hlen] at htail
      rw [htail]
      have hhead : SrcEngine.readInfo st2 pre.length = SrcEngine.readInfo st a := by
        unfold SrcEngine.readInfo
        rw [h, getD_append_full]
        rfl
      rw [hhead]
    · rw [hlen, List.append_assoc]
      exact h

theorem src_deref_congr (st st2 : SrcEngine.Store) (e : SrcEngine.EngineRef)
    (hr : ∀ a ∈ e.gridAddrs, SrcEngine.readRow st2 a = SrcEngine.readRow st a)
    (hi : ∀ p ∈ e.unitAddrs, SrcEngine.readInfo st2 p.2 = SrcEngine.readInfo st p.2) :
    SrcEngine.deref st2 e = SrcEngine.deref st e := by
  unfold SrcEngine.deref
  simp only [SrcEngine.GameEngine.mk.injEq, true_and]
  constructor
  · exact List.map_congr_left hr
  · exact List.map_congr_left (fun p hp => by rw [hi p hp])

/-- C10: `get_state` never mutates the engine — after the call every grid
row and unit record the engine refers to reads back unchanged — and the
snapshot it returns refers only to freshly allocated copies of the grid
rows and unit records (disjoint from the engine's addresses, equal in
content), so overwriting any snapshot row or unit record leaves the
engine's grid, units and counters exactly as before the call. -/
theorem c10_get_state_returns_fresh_copies (st : SrcEngine.Store)
    (e : SrcEngine.EngineRef)
    (hg : ∀ a ∈ e.gridAddrs, a < st.rows.length)
    (hu : ∀ p ∈ e.unitAddrs, p.2 < st.infos.length) :
    SrcEngine.deref (SrcEngine.get_state st e).1 e = SrcEngine.deref st e ∧
    (∀ b ∈ (SrcEngine.get_state st e).2.gridAddrs, b ∉ e.gridAddrs) ∧
    (∀ q ∈ (SrcEngine.get_state st e).2.unitAddrs, ∀ p ∈ e.unitAddrs, q.2 ≠ p.2) ∧
    (SrcEngine.get_state st e).2.gridAddrs.map
        (SrcEngine.readRow (SrcEngine.get_state st e).1) =
      e.gridAddrs.map (SrcEngine.readRow st) ∧
    (SrcEngine.get_state st e).2.unitAddrs.map
        (fun q => (q.1, SrcEngine.readInfo (SrcEngine.get_state st e).1 q.2)) =
      e.unitAddrs.map (fun p => (p.1, SrcEngine.readInfo st p.2)) ∧
    (∀ b ∈ (SrcEngine.get_state st e).2.gridAddrs, ∀ v,
      SrcEngine.deref (SrcEngine.writeRow (SrcEngine.get_state st e).1 b v) e =
        SrcEngine.deref st e) ∧
    (∀ q ∈ (SrcEngine.get_state st e).2.unitAddrs, ∀ v,
      SrcEngine.deref (SrcEngine.writeInfo (SrcEngine.get_state st e).1 q.2 v) e =
        SrcEngine.deref st e) ∧
    (SrcEngine.get_state st e).2.resources_collected = e.total_resources_collected ∧
    (SrcEngine.get_state st e).2.winner = e.winner := by
  have hrows1 : (SrcEngine.get_state st e).1.rows =
      st.rows ++ (SrcEngine.allocRows st st.rows.length e.gridAddrs).2 := rfl
  have hinfos1 : (SrcEngine.get_state st e).1.infos =
      st.infos ++ (SrcEngine.allocUnits st st.infos.length e.unitAddrs).2 := rfl
  have hga : (SrcEngine.get_state st e).2.gridAddrs =
      (SrcEngine.allocRows st st.rows.length e.gridAddrs).1 := rfl
  have hua : (SrcEngine.get_state st e).2.unitAddrs =
      (SrcEngine.allocUnits st st.infos.length e.unitAddrs).1 := rfl
  have hreadrow : ∀ a ∈ e.gridAddrs,
      SrcEngine.readRow (SrcEngine.get_state st e).1 a = SrcEngine.readRow st a := by
    intro a ha
    unfold SrcEngine.readRow
    rw [hrows1]
    exact getD_append_left' _ _ _ (hg a ha) _
  have hreadinfo : ∀ p ∈ e.unitAddrs,
      SrcEngine.readInfo (SrcEngine.get_state st e).1 p.2 = SrcEngine.readInfo st p.2 := by
    intro p hp
    unfold SrcEngine.readInfo
    rw [hinfos1]
    exact getD_append_left' _ _ _ (hu p hp) _
  have hfreshg : ∀ b ∈ (SrcEngine.get_state st e).2.gridAddrs, st.rows.length ≤ b := by
    intro b hb
    rw [hga] at hb
    exact src_allocRows_fst_ge st st.rows.length e.gridAddrs b hb
  have hfreshu : ∀ q ∈ (SrcEngine.get_state st e).2.unitAddrs, st.infos.length ≤ q.2 := by
    intro q hq
    rw [hua] at hq
    exact src_allocUnits_fst_ge st st.infos.length e.unitAddrs q hq
  refine ⟨src_deref_congr st _ e hreadrow hreadinfo, ?_, ?_, ?_, ?_, ?_, ?_, rfl, rfl⟩
  · intro b hb hmem
    exact absurd (hg b hmem) (Nat.not_lt.mpr (hfreshg b hb))
  · intro q hq p hp he
    exact absurd (hu p hp) (Nat.not_lt.mpr (he ▸ hfreshu q hq))
  · have hrb := src_allocRows_readback st e.gridAddrs st.rows
      (SrcEngine.get_state st e).1 hrows1
    rw [hga, hrb, src_allocRows_snd]
  · rw [hua]
    exact src_allocUnits_readback st e.unitAddrs st.infos (SrcEngine.get_state st e).1 hinfos1
  · intro b hb v
    refine src_deref_congr st _ e ?_ ?_
    · intro a ha
      unfold SrcEngine.readRow SrcEngine.writeRow
      have hne : b ≠ a := by
        have := hg a ha
        have := hfreshg b hb
        omega
      rw [show ({ (SrcEngine.get_state st e).1 with
            rows := (SrcEngine.get_state st e).1.rows.set b v } :
          SrcEngine.Store).rows = (SrcEngine.get_state st e).1.rows.set b v from rfl]
      rw [getD_set_ne' _ _ _ _ hne]
      exact hreadrow a ha
    · intro p hp
      exact hreadinfo p hp
  · intro q hq v
    refine src_deref_congr st _ e ?_ ?_
    · intro a ha
      exact hreadrow a ha
    · intro p hp
      unfold SrcEngine.readInfo SrcEngine.writeInfo
      have hne : q.2 ≠ p.2 := by
        have := hu p hp
        have := hfreshu q hq
        omega
      rw [show ({ (SrcEngine.get_state st e).1 with
            infos := (SrcEngine.get_state st e).1.infos.set q.2 v } :
          SrcEngine.Store).infos = (SrcEngine.get_state st e).1.infos.set q.2 v from rfl]
      rw [getD_set_ne' _ _ _ _ hne]
      exact hreadinfo p hp

/-- Witness for C10 at `sampleStore`/`sampleRef`: the engine reads back
unchanged after `get_state`, the snapshot rows equal the engine rows, and
overwriting snapshot row address 3 (the first fresh copy) leaves the
engine's denotation untouched. -/
theorem c10_get_state_returns_fresh_copies_witness :
    SrcEngine.deref (SrcEngine.get_state SrcEngine.sampleStore SrcEngine.sampleRef).1
        SrcEngine.sampleRef =
      SrcEngine.deref SrcEngine.sampleStore SrcEngine.sampleRef ∧
    (SrcEngine.get_state SrcEngine.sampleStore SrcEngine.sampleRef).2.gridAddrs.map
        (SrcEngine.readRow (SrcEngine.get_state SrcEngine.sampleStore SrcEngine.sampleRef).1) =
      SrcEngine.sampleRef.gridAddrs.map (SrcEngine.readRow SrcEngine.sampleStore) ∧
    SrcEngine.deref
        (SrcEngine.writeRow
          (SrcEngine.get_state SrcEngine.sampleStore SrcEngine.sampleRef).1 3 [])
        SrcEngine.sampleRef =
      SrcEngine.deref SrcEngine.sampleStore SrcEngine.sampleRef := by
  have h := c10_get_state_returns_fresh_copies SrcEngine.sampleStore SrcEngine.sampleRef
    (by decide) (by decide)
  exact ⟨h.1, h.2.2.2.1, h.2.2.2.2.2.1 3 (by decide) []⟩

/-! ### C5: room lifecycle on leave vs. disconnect -/

/-- C5 (failing input): when the host of room "r1" *disconnects*,
`unregister` looks up `client_info["player_id"]` — `None` before a game
starts (`sampleServer`), the engine-assigned id "p2" after
(`sampleServerStarted`) — in `room.players`, which is keyed by connection
client ids ("h", "m"), so the lookup never hits: the departing host is not
removed, the host role is not transferred, and an emptied room would not be
deleted.  The explicit `lobby_leave_room` path, keyed correctly by client
id, does remove the host and transfer the role to the remaining member
"m". -/
theorem c5_unregister_disconnect_keeps_member :
    (Server.unregister Server.sampleServer 0).rooms = Server.sampleServer.rooms ∧
    (Server.unregister Server.sampleServerStarted 0).rooms =
      Server.sampleServerStarted.rooms ∧
    (Server.lobby_leave_room Server.sampleServer 0).rooms =
      [("r1", ⟨"r1", "Room", "m", "Mem", [("m", ⟨"Mem", "#2196F3", true⟩)],
        "waiting", 0, none⟩)] := by
  refine ⟨?_, ?_, ?_⟩ <;> decide

/-! ### C6: starting a game from the lobby

First, injectivity of the decimal rendering used for sequential player ids
and of the single-letter unit labels: these are what make every freshly
allocated key distinct from all existing ones, so that each dict insert
adds a binding. -/

theorem charVal_digitChar (d : Nat) (h : d < 10) :
    charVal (Nat.digitChar d) = d := by
  interval_cases d <;> decide

theorem foldl_toDigitsCore (fuel : Nat) :
    ∀ (n : Nat) (ds : List Char), n < fuel →
      (Nat.toDigitsCore 10 fuel n ds).foldl digitStep 0 = ds.foldl digitStep n := by
  induction fuel with
  | zero => intro n ds h; omega
  | succ fuel ih =>
    intro n ds h
    unfold Nat.toDigitsCore
    dsimp only
    by_cases h0 : n / 10 = 0
    · simp only [h0, if_true, List.foldl_cons]
      rw [show digitStep 0 (Nat.digitChar (n % 10)) = n % 10 from by
        unfold digitStep
        rw [charVal_digitChar _ (Nat.mod_lt _ (by norm_num))]
        omega]
      have : n % 10 = n := by omega
      rw [this]
    · simp only [h0, if_false]
      have hlt : n / 10 < fuel := by
        have h1 : 0 < n := by
          by_contra hc
          exact h0 (by omega)
        have := Nat.div_lt_self h1 (by norm_num : 1 < 10)
        omega
      rw [ih (n / 10) (Nat.digitChar (n % 10) :: ds) hlt]
      simp only [List.foldl_cons]
      congr 1
      unfold digitStep
      rw [charVal_digitChar _ (Nat.mod_lt _ (by norm_num))]
      omega

theorem unrepr_repr (n : Nat) : unrepr (Nat.repr n).data = n := by
  unfold Nat.repr Nat.toDigits unrepr
  exact foldl_toDigitsCore (n + 1) n [] (Nat.lt_succ_self n)

theorem pidStr_inj (m n : Nat) (h : SpecEngine.pidStr m = SpecEngine.pidStr n) :
    m = n := by
  unfold SpecEngine.pidStr at h
  have hd : ('p' :: (toString m).data) = ('p' :: (toString n).data) :=
    congrArg String.data h
  have h2 : (toString m).data = (toString n).data := by
    injection hd
  have h3 : unrepr (Nat.repr m).data = unrepr (Nat.repr n).data :=
    congrArg unrepr h2
  rw [unrepr_repr, unrepr_repr] at h3
  exact h3

theorem char_ofNat_toNat_small (n : Nat) (h : n < 55296) :
    (Char.ofNat n).toNat = n := by
  unfold Char.ofNat
  rw [dif_pos (Or.inl h)]
  rfl

theorem next_unit_label_inj (m n : Nat) (hm : m < 26) (hn : n < 26)
    (h : SpecEngine.next_unit_label m = SpecEngine.next_unit_label n) : m = n := by
  unfold SpecEngine.next_unit_label at h
  have hd : [Char.ofNat (65 + m)] = [Char.ofNat (65 + n)] := congrArg String.data h
  have hc : Char.ofNat (65 + m) = Char.ofNat (65 + n) := by
    injection hd
  have h2 := congrArg Char.toNat hc
  rw [char_ofNat_toNat_small _ (by omega), char_ofNat_toNat_small _ (by omega)] at h2
  omega

theorem filter_split_length {α : Type} (L : List α) (p : α → Bool) :
    (L.filter p).length + (L.filter (fun a => ! p a)).length = L.length := by
  induction L with
  | nil => rfl
  | cons a rest ih => cases hpa : p a <;> simp [List.filter_cons, hpa] <;> omega

theorem nodup_filter_mem_length_le (L occ : List (Int × Int)) (hnd : L.Nodup) :
    (L.filter (fun a => decide (a ∈ occ))).length ≤ occ.length := by
  have hnd2 : (L.filter (fun a => decide (a ∈ occ))).Nodup := hnd.filter _
  have hsub : ∀ a ∈ L.filter (fun a => decide (a ∈ occ)), a ∈ occ := by
    intro a ha
    simpa using List.of_mem_filter ha
  calc (L.filter (fun a => decide (a ∈ occ))).length
      = (L.filter (fun a => decide (a ∈ occ))).toFinset.card :=
        (List.toFinset_card_of_nodup hnd2).symm
    _ ≤ occ.toFinset.card := Finset.card_le_card (fun a ha => by
        rw [List.mem_toFinset] at ha ⊢
        exact hsub a ha)
    _ ≤ occ.length := occ.toFinset_card_le

theorem all_land_nodup (g : List (List SpecEngine.TerrainType))
    (ex : List (Int × Int)) : (SpecEngine.all_land_positions g ex).Nodup := by
  apply List.Nodup.filter
  rw [List.nodup_flatMap]
  constructor
  · intro y hy
    rw [List.nodup_map_iff_inj_on (List.nodup_range _)]
    intro x hx y2 hy2 hxy
    have := congrArg Prod.fst hxy
    simpa using this
  · have hpl : (List.range (SpecEngine.height g)).Pairwise (· < ·) :=
      List.pairwise_lt_range _
    apply hpl.imp
    intro y1 y2 hlt
    intro a ha1 ha2
    simp only [List.mem_map] at ha1 ha2
    obtain ⟨x1, _, hx1⟩ := ha1
    obtain ⟨x2, _, hx2⟩ := ha2
    have h12 := hx1.trans hx2.symm
    rw [Prod.mk.injEq] at h12
    have := Int.ofNat.inj h12.2
    omega

theorem all_land_as_filter (g : List (List SpecEngine.TerrainType))
    (occ : List (Int × Int)) :
    SpecEngine.all_land_positions g occ =
      (SpecEngine.all_land_positions g []).filter (fun p => decide (p ∉ occ)) := by
  unfold SpecEngine.all_land_positions
  rw [List.filter_filter]
  apply List.filter_congr
  intro p hp
  by_cases ht : SpecEngine.terrainAt g p = some SpecEngine.TerrainType.LAND <;>
    by_cases hm : p ∈ occ <;> simp [ht, hm]

theorem all_land_length_lower (g : List (List SpecEngine.TerrainType))
    (occ : List (Int × Int)) :
    (SpecEngine.all_land_positions g []).length ≤
      (SpecEngine.all_land_positions g occ).length + occ.length := by
  rw [all_land_as_filter g occ]
  have hsplit := filter_split_length (SpecEngine.all_land_positions g [])
    (fun p => decide (p ∉ occ))
  have hco : ((SpecEngine.all_land_positions g []).filter
      (fun a => ! decide (a ∉ occ))) =
      (SpecEngine.all_land_positions g []).filter (fun a => decide (a ∈ occ)) :=
    List.filter_congr (fun a _ => by by_cases h : a ∈ occ <;> simp [h])
  have hle := nodup_filter_mem_length_le (SpecEngine.all_land_positions g []) occ
    (all_land_nodup g [])
  rw [hco] at hsplit
  omega

theorem add_unit_isSome (ch : List (Int × Int) → Option (Int × Int))
    (Hc : ∀ l : List (Int × Int), l ≠ [] → (ch l).isSome = true)
    (s : SpecEngine.GameEngine) (pid : String)
    (hp : acontains s.players pid = true)
    (hland : s.units.length < (SpecEngine.all_land_positions s.map_grid []).length) :
    ∃ r, SpecEngine.add_unit ch s pid = some r := by
  unfold SpecEngine.add_unit
  rw [if_neg (by simp [hp])]
  have hne : SpecEngine.all_land_positions s.map_grid
      (s.units.map (fun p => p.2.position)) ≠ [] := by
    intro hnil
    have hlow := all_land_length_lower s.map_grid (s.units.map (fun p => p.2.position))
    rw [hnil] at hlow
    simp only [List.length_nil, List.length_map, Nat.zero_add] at hlow
    omega
  have hsome := Hc _ hne
  cases hch : ch (SpecEngine.all_land_positions s.map_grid
      (s.units.map fun p => p.2.position)) with
  | none => rw [hch] at hsome; simp at hsome
  | some pos => exact ⟨_, rfl⟩

theorem alookup_append_of_some {α : Type} (l l2 : List (String × α)) (k : String)
    (v : α) (h : alookup l k = some v) : alookup (l ++ l2) k = some v := by
  induction l with
  | nil => simp [alookup] at h
  | cons p rest ih =>
    obtain ⟨k2, v2⟩ := p
    by_cases h2 : k2 = k
    · simp only [alookup, h2, if_true] at h ⊢
      simpa using h
    · simp only [alookup, h2, if_false] at h ⊢
      exact ih h

theorem alookup_append_right {α : Type} (l l2 : List (String × α)) (k : String)
    (h : acontains l k = false) : alookup (l ++ l2) k = alookup l2 k := by
  induction l with
  | nil => simp
  | cons p rest ih =>
    obtain ⟨k2, v2⟩ := p
    by_cases h2 : k2 = k
    · simp [acontains, alookup, h2] at h
    · simp only [acontains, alookup, h2, if_false] at h
      simpa [alookup, h2] using ih h

theorem amodify_append_fresh {α : Type} (l : List (String × α)) (k : String)
    (v : α) (f : α → α) (h : acontains l k = false) :
    amodify (l ++ [(k, v)]) k f = l ++ [(k, f v)] := by
  induction l with
  | nil => simp [amodify]
  | cons p rest ih =>
    obtain ⟨k2, v2⟩ := p
    by_cases h2 : k2 = k
    · simp [acontains, alookup, h2] at h
    · simp only [acontains, alookup, h2, if_false] at h
      simp [amodify, h2, ih h]

theorem not_contains_next_pid {α : Type} (l : List (String × α))
    (h : l.map Prod.fst = (List.range l.length).map SpecEngine.pidStr) :
    acontains l (SpecEngine.pidStr l.length) = false := by
  by_contra hc
  simp only [Bool.not_eq_false] at hc
  rw [acontains_iff_mem_fst, h] at hc
  simp only [List.mem_map, List.mem_range] at hc
  obtain ⟨i, hi, hpi⟩ := hc
  exact absurd (pidStr_inj i l.length hpi) (by omega)

theorem not_contains_next_label {α : Type} (l : List (String × α))
    (h : l.map Prod.fst = (List.range l.length).map SpecEngine.next_unit_label)
    (h26 : l.length < 26) :
    acontains l (SpecEngine.next_unit_label l.length) = false := by
  by_contra hc
  simp only [Bool.not_eq_false] at hc
  rw [acontains_iff_mem_fst, h] at hc
  simp only [List.mem_map, List.mem_range] at hc
  obtain ⟨i, hi, hpi⟩ := hc
  exact absurd (next_unit_label_inj i l.length (by omega) h26 hpi) (by omega)

theorem engine_ext (a b : SpecEngine.GameEngine) (h1 : a.map_grid = b.map_grid)
    (h2 : a.players = b.players) (h3 : a.units = b.units)
    (h4 : a.coin_positions = b.coin_positions)
    (h5 : a.current_turn = b.current_turn) (h6 : a.history = b.history) :
    a = b := by
  cases a
  cases b
  simp_all

theorem startGameStep_eq (choose : List (Int × Int) → Option (Int × Int))
    (Hc : ∀ l : List (Int × Int), l ≠ [] → (choose l).isSome = true)
    (g : SpecEngine.GameEngine) (acc : List (String × String))
    (cid : String) (pinfo : Server.RoomPlayer)
    (hK1 : g.players.map Prod.fst = (List.range g.players.length).map SpecEngine.pidStr)
    (hK2 : g.units.map Prod.fst =
      (List.range g.units.length).map SpecEngine.next_unit_label)
    (hland : g.units.length < (SpecEngine.all_land_positions g.map_grid []).length)
    (h26 : g.units.length < 26) :
    ∃ pos, Server.startGameStep choose (g, acc) (cid, pinfo) =
      ({ g with
          players := g.players ++ [(SpecEngine.pidStr g.players.length,
            ⟨SpecEngine.pidStr g.players.length, pinfo.name, pinfo.color⟩)],
          units := g.units ++ [(SpecEngine.next_unit_label g.units.length,
            ⟨SpecEngine.next_unit_label g.units.length, pos,
             SpecEngine.pidStr g.players.length⟩)] },
       acc ++ [(cid, SpecEngine.pidStr g.players.length)]) := by
  have hfreshp := not_contains_next_pid g.players hK1
  have hfreshu := not_contains_next_label g.units hK2 h26
  have hps : (SpecEngine.add_player g pinfo.name).2.players =
      g.players ++ [(SpecEngine.pidStr g.players.length,
        ⟨SpecEngine.pidStr g.players.length, pinfo.name,
         SpecEngine.color_palette.getD
           (g.players.length % SpecEngine.color_palette.length) ""⟩)] := by
    unfold SpecEngine.add_player
    exact aset_eq_append _ _ _ hfreshp
  have hpid : (SpecEngine.add_player g pinfo.name).1 =
      SpecEngine.pidStr g.players.length := rfl
  -- the color-overwrite branch is taken, and rewrites the appended player
  have hcont : acontains (SpecEngine.add_player g pinfo.name).2.players
      (SpecEngine.pidStr g.players.length) = true := by
    rw [hps, acontains_iff_mem_fst]
    simp
  have hg1full : (if acontains (SpecEngine.add_player g pinfo.name).2.players
        (SpecEngine.add_player g pinfo.name).1 then
      { (SpecEngine.add_player g pinfo.name).2 with
          players := amodify (SpecEngine.add_player g pinfo.name).2.players
            (SpecEngine.add_player g pinfo.name).1
            (fun p => { p with color := pinfo.color }) }
    else (SpecEngine.add_player g pinfo.name).2) =
      { g with players := g.players ++ [(SpecEngine.pidStr g.players.length,
          ⟨SpecEngine.pidStr g.players.length, pinfo.name, pinfo.color⟩)] } := by
    apply engine_ext
    · split <;> rfl
    · rw [hpid, if_pos (hpid ▸ hcont)]
      show amodify (SpecEngine.add_player g pinfo.name).2.players
          (SpecEngine.pidStr g.players.length) _ = _
      rw [hps, amodify_append_fresh _ _ _ _ hfreshp]
    · split <;> rfl
    · split <;> rfl
    · split <;> rfl
    · split <;> rfl
  obtain ⟨r2, hr2⟩ := add_unit_isSome choose Hc
    { g with players := g.players ++ [(SpecEngine.pidStr g.players.length,
        ⟨SpecEngine.pidStr g.players.length, pinfo.name, pinfo.color⟩)] }
    (SpecEngine.pidStr g.players.length)
    (by rw [acontains_iff_mem_fst]; simp) hland
  obtain ⟨hct, hh, hmg, hpl, hcp, hlab, pos, hun⟩ :=
    spec_add_unit_frame choose _ _ r2 hr2
  refine ⟨pos, ?_⟩
  unfold Server.startGameStep
  dsimp only
  simp only [hg1full]
  simp only [hpid]
  simp only [hr2]
  refine Prod.ext ?_ rfl
  dsimp only
  apply engine_ext
  · rw [hmg]
  · rw [hpl]
  · rw [hun, aset_eq_append _ _ _ hfreshu]
  · rw [hcp]
  · rw [hct]
  · rw [hh]


theorem startGameStep_eq2 (choose : List (Int × Int) → Option (Int × Int))
    (Hc : ∀ l : List (Int × Int), l ≠ [] → (choose l).isSome = true)
    (p : SpecEngine.GameEngine × List (String × String))
    (m : String × Server.RoomPlayer)
    (hK1 : p.1.players.map Prod.fst =
      (List.range p.1.players.length).map SpecEngine.pidStr)
    (hK2 : p.1.units.map Prod.fst =
      (List.range p.1.units.length).map SpecEngine.next_unit_label)
    (hland : p.1.units.length <
      (SpecEngine.all_land_positions p.1.map_grid []).length)
    (h26 : p.1.units.length < 26) :
    ∃ pos, Server.startGameStep choose p m =
      ({ p.1 with
          players := p.1.players ++ [(SpecEngine.pidStr p.1.players.length,
            ⟨SpecEngine.pidStr p.1.players.length, m.2.name, m.2.color⟩)],
          units := p.1.units ++ [(SpecEngine.next_unit_label p.1.units.length,
            ⟨SpecEngine.next_unit_label p.1.units.length, pos,
             SpecEngine.pidStr p.1.players.length⟩)] },
       p.2 ++ [(m.1, SpecEngine.pidStr p.1.players.length)]) := by
  obtain ⟨pos, h⟩ := startGameStep_eq choose Hc p.1 p.2 m.1 m.2 hK1 hK2 hland h26
  exact ⟨pos, h⟩

theorem server_start_loop (choose : List (Int × Int) → Option (Int × Int))
    (Hc : ∀ l : List (Int × Int), l ≠ [] → (choose l).isSome = true) :
    ∀ (members : List (String × Server.RoomPlayer))
      (p : SpecEngine.GameEngine × List (String × String)),
    p.1.players.map Prod.fst =
      (List.range p.1.players.length).map SpecEngine.pidStr →
    p.1.units.map Prod.fst =
      (List.range p.1.units.length).map SpecEngine.next_unit_label →
    p.1.units.length = p.1.players.length →
    p.1.players.length + members.length ≤
      (SpecEngine.all_land_positions p.1.map_grid []).length →
    p.1.units.length + members.length ≤ 26 →
    (members.foldl (Server.startGameStep choose) p).1.map_grid = p.1.map_grid ∧
    (members.foldl (Server.startGameStep choose) p).1.players.length =
      p.1.players.length + members.length ∧
    (members.foldl (Server.startGameStep choose) p).1.units.length =
      p.1.units.length + members.length ∧
    (members.foldl (Server.startGameStep choose) p).2 =
      p.2 ++ Server.memberAssoc p.1.players.length members ∧
    (∀ pid v, alookup p.1.players pid = some v →
      alookup (members.foldl (Server.startGameStep choose) p).1.players pid =
        some v) ∧
    (∀ un v, alookup p.1.units un = some v →
      alookup (members.foldl (Server.startGameStep choose) p).1.units un =
        some v) ∧
    (∀ k, ∀ hk : k < members.length,
      alookup (members.foldl (Server.startGameStep choose) p).1.players
          (SpecEngine.pidStr (p.1.players.length + k)) =
        some ⟨SpecEngine.pidStr (p.1.players.length + k),
              (members.get ⟨k, hk⟩).2.name, (members.get ⟨k, hk⟩).2.color⟩ ∧
      ∃ pos, alookup (members.foldl (Server.startGameStep choose) p).1.units
          (SpecEngine.next_unit_label (p.1.units.length + k)) =
        some ⟨SpecEngine.next_unit_label (p.1.units.length + k), pos,
              SpecEngine.pidStr (p.1.players.length + k)⟩) := by
  intro members
  induction members with
  | nil =>
    intro p hK1 hK2 hK3 hland h26
    refine ⟨rfl, by simp, by simp, by simp [Server.memberAssoc],
      fun pid v h => h, fun un v h => h, fun k hk => absurd hk (by simp)⟩
  | cons m rest ih =>
    obtain ⟨cid, pinfo⟩ := m
    intro p hK1 hK2 hK3 hland h26
    obtain ⟨pos0, hstep⟩ := startGameStep_eq2 choose Hc p (cid, pinfo) hK1 hK2
      (by simp only [List.length_cons] at hland; omega)
      (by simp only [List.length_cons] at h26; omega)
    dsimp only at hstep
    have hfreshp := not_contains_next_pid p.1.players hK1
    have hfreshu := not_contains_next_label p.1.units hK2
      (by simp only [List.length_cons] at h26; omega)
    rw [List.foldl_cons, hstep]
    obtain ⟨ihmg, ihpl, ihul, ihassoc, ihpersP, ihpersU, ihmem⟩ :=
      ih ({ p.1 with
          players := p.1.players ++ [(SpecEngine.pidStr p.1.players.length,
            ⟨SpecEngine.pidStr p.1.players.length, pinfo.name, pinfo.color⟩)],
          units := p.1.units ++ [(SpecEngine.next_unit_label p.1.units.length,
            ⟨SpecEngine.next_unit_label p.1.units.length, pos0,
             SpecEngine.pidStr p.1.players.length⟩)] },
        p.2 ++ [(cid, SpecEngine.pidStr p.1.players.length)])
        (by dsimp only
            simp [List.range_succ, hK1])
        (by dsimp only
            simp [List.range_succ, hK2])
        (by dsimp only
            simp only [List.length_append, List.length_cons, List.length_nil]
            omega)
        (by dsimp only
            simp only [List.length_append, List.length_cons, List.length_nil] at hland ⊢
            omega)
        (by dsimp only
            simp only [List.length_append, List.length_cons, List.length_nil] at h26 ⊢
            omega)
    refine ⟨ihmg, ?_, ?_, ?_, ?_, ?_, ?_⟩
    · rw [ihpl]
      dsimp only
      simp only [List.length_append, List.length_cons, List.length_nil]
      omega
    · rw [ihul]
      dsimp only
      simp only [List.length_append, List.length_cons, List.length_nil]
      omega
    · rw [ihassoc]
      dsimp only
      simp [Server.memberAssoc, List.append_assoc]
    · intro pid v h
      exact ihpersP pid v (alookup_append_of_some _ _ _ _ h)
    · intro un v h
      exact ihpersU un v (alookup_append_of_some _ _ _ _ h)
    · intro k hk
      cases k with
      | zero =>
        constructor
        · have hlk : alookup (p.1.players ++
              [(SpecEngine.pidStr p.1.players.length,
                ⟨SpecEngine.pidStr p.1.players.length, pinfo.name, pinfo.color⟩)])
              (SpecEngine.pidStr p.1.players.length) =
              some ⟨SpecEngine.pidStr p.1.players.length, pinfo.name,
                pinfo.color⟩ := by
            rw [alookup_append_right _ _ _ hfreshp]
            simp [alookup]
          have hres := ihpersP _ _ hlk
          simpa using hres
        · refine ⟨pos0, ?_⟩
          have hlk : alookup (p.1.units ++
              [(SpecEngine.next_unit_label p.1.units.length,
                ⟨SpecEngine.next_unit_label p.1.units.length, pos0,
                 SpecEngine.pidStr p.1.players.length⟩)])
              (SpecEngine.next_unit_label p.1.units.length) =
              some ⟨SpecEngine.next_unit_label p.1.units.length, pos0,
                SpecEngine.pidStr p.1.players.length⟩ := by
            rw [alookup_append_right _ _ _ hfreshu]
            simp [alookup]
          have hres := ihpersU _ _ hlk
          simpa using hres
      | succ k =>
        have hk2 : k < rest.length := by
          simp only [List.length_cons] at hk
          omega
        obtain ⟨hP, pos, hU⟩ := ihmem k hk2
        have hEqP : ({ p.1 with
            players := p.1.players ++ [(SpecEngine.pidStr p.1.players.length,
              ⟨SpecEngine.pidStr p.1.players.length, pinfo.name, pinfo.color⟩)],
            units := p.1.units ++ [(SpecEngine.next_unit_label p.1.units.length,
              ⟨SpecEngine.next_unit_label p.1.units.length, pos0,
               SpecEngine.pidStr p.1.players.length⟩)] } :
            SpecEngine.GameEngine).players.length + k =
            p.1.players.length + (k + 1) := by
          dsimp only
          simp only [List.length_append, List.length_cons, List.length_nil]
          omega
        have hEqU : ({ p.1 with
            players := p.1.players ++ [(SpecEngine.pidStr p.1.players.length,
              ⟨SpecEngine.pidStr p.1.players.length, pinfo.name, pinfo.color⟩)],
            units := p.1.units ++ [(SpecEngine.next_unit_label p.1.units.length,
              ⟨SpecEngine.next_unit_label p.1.units.length, pos0,
               SpecEngine.pidStr p.1.players.length⟩)] } :
            SpecEngine.GameEngine).units.length + k =
            p.1.units.length + (k + 1) := by
          dsimp only
          simp only [List.length_append, List.length_cons, List.length_nil]
          omega
        rw [hEqP] at hP
        rw [hEqU, hEqP] at hU
        exact ⟨hP, pos, hU⟩

theorem set_first_preserve (cls : List Server.ClientInfo) (cid gpid : String)
    (j : Nat) (cj : Server.ClientInfo) (h : cls[j]? = some cj)
    (hne : cj.id ≠ cid) :
    (Server.set_first_player_id cls cid gpid)[j]? = some cj := by
  induction cls generalizing j with
  | nil => simp at h
  | cons c restc ihc =>
    by_cases hc : c.id = cid
    · simp only [Server.set_first_player_id, hc, if_true]
      cases j with
      | zero =>
        simp only [List.getElem?_cons_zero, Option.some.injEq] at h
        subst h
        exact absurd hc hne
      | succ j => simpa using h
    · simp only [Server.set_first_player_id, hc, if_false]
      cases j with
      | zero => simpa using h
      | succ j =>
        simp only [List.getElem?_cons_succ] at h ⊢
        exact ihc j h

theorem set_first_hit (cls : List Server.ClientInfo) (cid gpid : String)
    (j : Nat) (cj : Server.ClientInfo) (h : cls[j]? = some cj)
    (hid : cj.id = cid)
    (hfirst : ∀ j2 < j, ∀ cj2, cls[j2]? = some cj2 → cj2.id ≠ cid) :
    (Server.set_first_player_id cls cid gpid)[j]? =
      some { cj with player_id := some gpid } := by
  induction cls generalizing j with
  | nil => simp at h
  | cons c restc ihc =>
    cases j with
    | zero =>
      simp only [List.getElem?_cons_zero, Option.some.injEq] at h
      subst h
      simp [Server.set_first_player_id, hid]
    | succ j =>
      have hc : c.id ≠ cid := hfirst 0 (Nat.succ_pos _) c (by simp)
      simp only [Server.set_first_player_id, hc, if_false]
      simp only [List.getElem?_cons_succ] at h ⊢
      exact ihc j h (fun j2 hj2 cj2 h2 =>
        hfirst (j2 + 1) (by omega) cj2 (by simpa using h2))

theorem set_first_id_at (cls : List Server.ClientInfo) (cid gpid : String)
    (j : Nat) :
    ((Server.set_first_player_id cls cid gpid)[j]?).map Server.ClientInfo.id =
      (cls[j]?).map Server.ClientInfo.id := by
  induction cls generalizing j with
  | nil => rfl
  | cons c restc ihc =>
    by_cases hc : c.id = cid
    · cases j <;> simp [Server.set_first_player_id, hc]
    · cases j with
      | zero => simp [Server.set_first_player_id, hc]
      | succ j =>
        simp only [Server.set_first_player_id, hc, if_false,
          List.getElem?_cons_succ]
        exact ihc j

theorem assoc_clients_preserve (pairs : List (String × String)) :
    ∀ (cls : List Server.ClientInfo) (cid : String) (j : Nat)
      (cj : Server.ClientInfo),
    cls[j]? = some cj → cj.id = cid → (∀ pr ∈ pairs, pr.1 ≠ cid) →
    (Server.assoc_clients cls pairs)[j]? = some cj := by
  induction pairs with
  | nil =>
    intro cls cid j cj h _ _
    exact h
  | cons pr restp ihp =>
    intro cls cid j cj h hid hne
    obtain ⟨c1, g1⟩ := pr
    show (Server.assoc_clients (Server.set_first_player_id cls c1 g1) restp)[j]? =
      some cj
    have hc1 : c1 ≠ cid := hne (c1, g1) (by simp)
    refine ihp _ cid j cj ?_ hid ?_
    · exact set_first_preserve cls c1 g1 j cj h (by rw [hid]; exact fun e => hc1 e.symm)
    · intro pr2 hpr2
      exact hne pr2 (by simp [hpr2])

theorem assoc_clients_sets (pairs : List (String × String)) :
    ∀ (cls : List Server.ClientInfo) (cid gpid : String) (j : Nat)
      (cj : Server.ClientInfo),
    (cid, gpid) ∈ pairs → (pairs.map Prod.fst).Nodup →
    cls[j]? = some cj → cj.id = cid →
    (∀ j2 < j, ∀ cj2, cls[j2]? = some cj2 → cj2.id ≠ cid) →
    (Server.assoc_clients cls pairs)[j]? =
      some { cj with player_id := some gpid } := by
  induction pairs with
  | nil =>
    intro cls cid gpid j cj hmem
    simp at hmem
  | cons pr restp ihp =>
    intro cls cid gpid j cj hmem hnd h hid hfirst
    obtain ⟨c1, g1⟩ := pr
    show (Server.assoc_clients (Server.set_first_player_id cls c1 g1) restp)[j]? = _
    rcases List.mem_cons.mp hmem with heq | hmem2
    · have hc : cid = c1 := congrArg Prod.fst heq
      have hg : gpid = g1 := congrArg Prod.snd heq
      subst hc
      subst hg
      have hset := set_first_hit cls cid gpid j cj h hid hfirst
      have hnotin : ∀ pr2 ∈ restp, pr2.1 ≠ cid := by
        intro pr2 hpr2 he
        have hm : cid ∈ restp.map Prod.fst := List.mem_map.mpr ⟨pr2, hpr2, he⟩
        exact (List.nodup_cons.mp hnd).1 (by simpa using hm)
      exact assoc_clients_preserve restp _ cid j _ hset (by simpa using hid) hnotin
    · have hc1ne : c1 ≠ cid := by
        intro he
        subst he
        have hm : c1 ∈ restp.map Prod.fst := List.mem_map.mpr ⟨(c1, gpid), hmem2, rfl⟩
        exact (List.nodup_cons.mp hnd).1 (by simpa using hm)
      have h2 := set_first_preserve cls c1 g1 j cj h
        (by rw [hid]; exact fun e => hc1ne e.symm)
      refine ihp _ cid gpid j cj hmem2 (List.nodup_cons.mp hnd).2 h2 hid ?_
      intro j2 hj2 cj2 hcj2
      have hmapeq := set_first_id_at cls c1 g1 j2
      rw [hcj2] at hmapeq
      cases hcls2 : cls[j2]? with
      | none =>
        rw [hcls2] at hmapeq
        exact absurd hmapeq (by simp)
      | some cj2b =>
        rw [hcls2] at hmapeq
        have hmm : cj2.id = cj2b.id := by simpa using hmapeq
        rw [hmm]
        exact hfirst j2 hj2 cj2b hcls2

theorem first_match_exists (cls : List Server.ClientInfo) (cid : String)
    (h : ∃ c ∈ cls, c.id = cid) :
    ∃ (j : Nat) (cj : Server.ClientInfo), cls[j]? = some cj ∧ cj.id = cid ∧
      ∀ j2 < j, ∀ cj2, cls[j2]? = some cj2 → cj2.id ≠ cid := by
  induction cls with
  | nil => simp at h
  | cons c restc ihc =>
    by_cases hc : c.id = cid
    · exact ⟨0, c, by simp, hc, fun j2 hj2 => absurd hj2 (by omega)⟩
    · obtain ⟨c2, hc2, hcid⟩ := h
      rcases List.mem_cons.mp hc2 with rfl | hmem
      · exact absurd hcid hc
      · obtain ⟨j, cj, h1, h2, h3⟩ := ihc ⟨c2, hmem, hcid⟩
        refine ⟨j + 1, cj, by simpa using h1, h2, ?_⟩
        intro j2 hj2 cj2 hcj2
        cases j2 with
        | zero =>
          simp only [List.getElem?_cons_zero, Option.some.injEq] at hcj2
          rw [← hcj2]
          exact hc
        | succ j2 => exact h3 j2 (by omega) cj2 (by simpa using hcj2)

theorem add_unit_K2 (ch : List (Int × Int) → Option (Int × Int))
    (s : SpecEngine.GameEngine) (pid : String)
    (r : String × SpecEngine.GameEngine)
    (h : SpecEngine.add_unit ch s pid = some r)
    (hK2 : s.units.map Prod.fst =
      (List.range s.units.length).map SpecEngine.next_unit_label)
    (h26 : s.units.length < 26) :
    r.2.units.map Prod.fst =
      (List.range r.2.units.length).map SpecEngine.next_unit_label ∧
    r.2.units.length = s.units.length + 1 := by
  obtain ⟨-, -, -, -, -, -, pos, hun⟩ := spec_add_unit_frame ch s pid r h
  have hfresh := not_contains_next_label s.units hK2 h26
  rw [hun, aset_eq_append _ _ _ hfresh]
  constructor
  · simp [List.range_succ, hK2]
  · simp

theorem spec_init_shape (grid : List (List SpecEngine.TerrainType)) (ncoins : Nat)
    (ch : List (Int × Int) → Option (Int × Int))
    (Hc : ∀ l : List (Int × Int), l ≠ [] → (ch l).isSome = true)
    (hland : 2 ≤ (SpecEngine.all_land_positions grid []).length) :
    (SpecEngine.init grid ncoins ch).map_grid = grid ∧
    (SpecEngine.init grid ncoins ch).players.length = 2 ∧
    (SpecEngine.init grid ncoins ch).units.length = 2 ∧
    (SpecEngine.init grid ncoins ch).players.map Prod.fst =
      (List.range (SpecEngine.init grid ncoins ch).players.length).map
        SpecEngine.pidStr ∧
    (SpecEngine.init grid ncoins ch).units.map Prod.fst =
      (List.range (SpecEngine.init grid ncoins ch).units.length).map
        SpecEngine.next_unit_label := by
  have hs2p : (SpecEngine.add_player (SpecEngine.add_player
      { map_grid := grid, players := [], units := [], coin_positions := [],
        current_turn := 0, history := [] } "Player 1").2 "Player 2").2.players =
      [(SpecEngine.pidStr 0, ⟨SpecEngine.pidStr 0, "Player 1", "#F44336"⟩),
       (SpecEngine.pidStr 1, ⟨SpecEngine.pidStr 1, "Player 2", "#2196F3"⟩)] := by
    simp +decide [SpecEngine.add_player, aset, SpecEngine.pidStr,
      SpecEngine.color_palette]
  have hs2u : (SpecEngine.add_player (SpecEngine.add_player
      { map_grid := grid, players := [], units := [], coin_positions := [],
        current_turn := 0, history := [] } "Player 1").2 "Player 2").2.units =
      [] := rfl
  have hs2mg : (SpecEngine.add_player (SpecEngine.add_player
      { map_grid := grid, players := [], units := [], coin_positions := [],
        current_turn := 0, history := [] } "Player 1").2 "Player 2").2.map_grid =
      grid := rfl
  have hcont1 : acontains (SpecEngine.add_player (SpecEngine.add_player
      { map_grid := grid, players := [], units := [], coin_positions := [],
        current_turn := 0, history := [] } "Player 1").2 "Player 2").2.players
      (SpecEngine.add_player
      { map_grid := grid, players := [], units := [], coin_positions := [],
        current_turn := 0, history := [] } "Player 1").1 = true := by
    rw [show (SpecEngine.add_player
      { map_grid := grid, players := [], units := [], coin_positions := [],
        current_turn := 0, history := [] } "Player 1").1 = SpecEngine.pidStr 0 from
      rfl, acontains_iff_mem_fst, hs2p]
    simp
  obtain ⟨r3, hr3⟩ := add_unit_isSome ch Hc _ _ hcont1
    (by rw [hs2u, hs2mg]
        simp only [List.length_nil]
        omega)
  obtain ⟨hct3, hh3, hmg3, hpl3, hcp3, hlab3, pos3, hun3⟩ :=
    spec_add_unit_frame ch _ _ r3 hr3
  obtain ⟨h3K, h3len⟩ := add_unit_K2 ch _ _ r3 hr3 (by rw [hs2u]; rfl)
    (by rw [hs2u]; simp)
  have hcont2 : acontains r3.2.players (SpecEngine.add_player
      (SpecEngine.add_player
      { map_grid := grid, players := [], units := [], coin_positions := [],
        current_turn := 0, history := [] } "Player 1").2 "Player 2").1 = true := by
    rw [acontains_iff_mem_fst, hpl3, hs2p]
    simp only [List.map_cons, List.map_nil, List.mem_cons]
    exact Or.inr (Or.inl rfl)
  obtain ⟨r4, hr4⟩ := add_unit_isSome ch Hc r3.2 _ hcont2
    (by rw [h3len, hs2u, hmg3, hs2mg]
        simp only [List.length_nil]
        omega)
  obtain ⟨hct4, hh4, hmg4, hpl4, hcp4, hlab4, pos4, hun4⟩ :=
    spec_add_unit_frame ch r3.2 _ r4 hr4
  obtain ⟨h4K, h4len⟩ := add_unit_K2 ch r3.2 _ r4 hr4 h3K
    (by rw [h3len, hs2u]; simp)
  simp only [SpecEngine.init]
  rw [hr3]
  dsimp only
  rw [hr4]
  dsimp only
  have hplen : (SpecEngine._save_state
      (SpecEngine.place_coins ch ncoins r4.2)).players.length = 2 := by
    rw [show (SpecEngine._save_state (SpecEngine.place_coins ch ncoins r4.2)).players =
        (SpecEngine.place_coins ch ncoins r4.2).players from rfl,
      (spec_place_coins_frame ch ncoins r4.2).2.2.2.1, hpl4, hpl3, hs2p]
    rfl
  have hulen : (SpecEngine._save_state
      (SpecEngine.place_coins ch ncoins r4.2)).units.length = 2 := by
    rw [show (SpecEngine._save_state (SpecEngine.place_coins ch ncoins r4.2)).units =
        (SpecEngine.place_coins ch ncoins r4.2).units from rfl,
      (spec_place_coins_frame ch ncoins r4.2).2.2.2.2, h4len, h3len, hs2u]
    rfl
  refine ⟨?_, hplen, hulen, ?_, ?_⟩
  · rw [show (SpecEngine._save_state (SpecEngine.place_coins ch ncoins r4.2)).map_grid =
        (SpecEngine.place_coins ch ncoins r4.2).map_grid from rfl,
      (spec_place_coins_frame ch ncoins r4.2).2.2.1, hmg4, hmg3, hs2mg]
  · rw [hplen,
      show (SpecEngine._save_state (SpecEngine.place_coins ch ncoins r4.2)).players =
        (SpecEngine.place_coins ch ncoins r4.2).players from rfl,
      (spec_place_coins_frame ch ncoins r4.2).2.2.2.1, hpl4, hpl3, hs2p]
    rfl
  · rw [hulen,
      show (SpecEngine._save_state (SpecEngine.place_coins ch ncoins r4.2)).units =
        (SpecEngine.place_coins ch ncoins r4.2).units from rfl,
      (spec_place_coins_frame ch ncoins r4.2).2.2.2.2]
    rw [show (List.range 2).map SpecEngine.next_unit_label =
        (List.range r4.2.units.length).map SpecEngine.next_unit_label from by
      rw [h4len, h3len, hs2u]
      rfl]
    exact h4K

theorem memberAssoc_map_fst (members : List (String × Server.RoomPlayer)) :
    ∀ m, (Server.memberAssoc m members).map Prod.fst =
      members.map Prod.fst := by
  induction members with
  | nil => intro m; rfl
  | cons p rest ih =>
    intro m
    obtain ⟨cid, info⟩ := p
    simp [Server.memberAssoc, ih (m + 1)]

theorem memberAssoc_mem (members : List (String × Server.RoomPlayer)) :
    ∀ m k (hk : k < members.length),
      ((members.get ⟨k, hk⟩).1, SpecEngine.pidStr (m + k)) ∈
        Server.memberAssoc m members := by
  induction members with
  | nil => intro m k hk; simp at hk
  | cons p rest ih =>
    intro m k hk
    obtain ⟨cid, info⟩ := p
    cases k with
    | zero => simp [Server.memberAssoc]
    | succ k =>
      have hk2 : k < rest.length := by
        simp only [List.length_cons] at hk
        omega
      have hstep := ih (m + 1) k hk2
      simp only [Server.memberAssoc, List.mem_cons]
      right
      have harith : m + 1 + k = m + (k + 1) := by omega
      rw [harith] at hstep
      simpa using hstep

/-- C6: the `lobby_start_game` branch of `process_lobby_command` in
`src/game_server.py` leaves the server state unchanged (an error reply is
merely sent) when the requesting connection is not the room's host; when the
requester is the host it builds a fresh engine from the configured map
parameters, registers one player (with the member's name and color) and one
unit per room member, associates each member connection's `player_id` with
its game player id, embeds the engine in the room and sets the room's
status to "playing". -/
theorem c6_start_game_host_gate_and_per_member_registration
    (s : Server.ServerState) (idx : Nat) (ci : Server.ClientInfo)
    (rid : String) (room : Server.GameRoom)
    (grid : List (List SpecEngine.TerrainType)) (ncoins : Nat)
    (choose : List (Int × Int) → Option (Int × Int))
    (hci : s.clients.get? idx = some ci)
    (hrid : ci.room_id = some rid)
    (hroom : alookup s.rooms rid = some room)
    (Hc : ∀ l : List (Int × Int), l ≠ [] → (choose l).isSome = true)
    (hland : room.players.length + 2 ≤
      (SpecEngine.all_land_positions grid []).length)
    (h26 : room.players.length + 2 ≤ 26)
    (hmnd : (room.players.map Prod.fst).Nodup)
    (hmcl : ∀ m ∈ room.players, ∃ c ∈ s.clients, c.id = m.1) :
    (ci.id ≠ room.host_id →
      Server.lobby_start_game s idx grid ncoins choose = s) ∧
    (ci.id = room.host_id →
      ∃ room2 g,
        alookup (Server.lobby_start_game s idx grid ncoins choose).rooms rid =
          some room2 ∧
        room2.status = "playing" ∧
        room2.game = some g ∧
        room2.players = room.players ∧
        g.map_grid = grid ∧
        g.players.length = room.players.length + 2 ∧
        g.units.length = room.players.length + 2 ∧
        (∀ k, ∀ hk : k < room.players.length,
          alookup g.players (SpecEngine.pidStr (2 + k)) =
            some ⟨SpecEngine.pidStr (2 + k),
                  (room.players.get ⟨k, hk⟩).2.name,
                  (room.players.get ⟨k, hk⟩).2.color⟩ ∧
          (∃ pos, alookup g.units (SpecEngine.next_unit_label (2 + k)) =
            some ⟨SpecEngine.next_unit_label (2 + k), pos,
                  SpecEngine.pidStr (2 + k)⟩) ∧
          ∃ (j : Nat) (cj : Server.ClientInfo),
            (s.clients)[j]? = some cj ∧
            cj.id = (room.players.get ⟨k, hk⟩).1 ∧
            ((Server.lobby_start_game s idx grid ncoins choose).clients)[j]? =
              some { cj with player_id := some (SpecEngine.pidStr (2 + k)) })) := by
  constructor
  · intro hne
    unfold Server.lobby_start_game
    rw [hci]
    dsimp only
    rw [hrid]
    dsimp only
    rw [hroom]
    dsimp only
    rw [if_pos hne]
  · intro hhost
    obtain ⟨i_mg, i_p2, i_u2, iK1, iK2⟩ :=
      spec_init_shape grid ncoins choose Hc (by omega)
    obtain ⟨Lmg, Lpl, Lul, Lassoc, LpersP, LpersU, Lmem⟩ :=
      server_start_loop choose Hc room.players
        (SpecEngine.init grid ncoins choose, [])
        (by dsimp only; exact iK1)
        (by dsimp only; exact iK2)
        (by dsimp only; rw [i_p2, i_u2])
        (by dsimp only; rw [i_p2, i_mg]; omega)
        (by dsimp only; rw [i_u2]; omega)
    dsimp only at Lmg Lpl Lul Lassoc Lmem
    rw [i_mg] at Lmg
    rw [i_p2] at Lpl
    rw [i_u2] at Lul
    simp only [i_p2, List.nil_append] at Lassoc
    simp only [i_p2, i_u2] at Lmem
    unfold Server.lobby_start_game
    rw [hci]
    dsimp only
    rw [hrid]
    dsimp only
    rw [hroom]
    dsimp only
    rw [if_neg (fun hcon => hcon hhost)]
    dsimp only
    refine ⟨_, _, alookup_aset_self _ _ _, rfl, rfl, rfl, ?_, ?_, ?_, ?_⟩
    · exact Lmg
    · rw [Lpl]; omega
    · rw [Lul]; omega
    · intro k hk
      obtain ⟨hPk, hUk⟩ := Lmem k hk
      refine ⟨hPk, hUk, ?_⟩
      have hmemb : room.players.get ⟨k, hk⟩ ∈ room.players :=
        room.players.get_mem k hk
      obtain ⟨c, hcmem, hcid⟩ := hmcl _ hmemb
      obtain ⟨j, cj, hj, hjid, hjfirst⟩ :=
        first_match_exists s.clients ((room.players.get ⟨k, hk⟩).1)
          ⟨c, hcmem, hcid⟩
      refine ⟨j, cj, hj, hjid, ?_⟩
      rw [Lassoc]
      exact assoc_clients_sets (Server.memberAssoc 2 room.players) s.clients
        _ _ j cj (memberAssoc_mem room.players 2 k hk)
        (by rw [memberAssoc_map_fst]; exact hmnd) hj hjid hjfirst

theorem c6_start_game_host_gate_and_per_member_registration_witness :
    (alookup (Server.lobby_start_game Server.sampleServer 0
        SpecEngine.landGrid5 1 List.head?).rooms "r1").map
      (fun r => (r.status, r.players.length,
        r.game.map (fun g => (g.players.length, g.units.length)))) =
      some ("playing", 2, some (4, 4)) := by
  obtain ⟨-, hhost⟩ := c6_start_game_host_gate_and_per_member_registration
    Server.sampleServer 0 ⟨"h", "Host", some "r1", none, none⟩ "r1"
    ⟨"r1", "Room", "h", "Host",
      [("h", ⟨"Host", "#F44336", true⟩), ("m", ⟨"Mem", "#2196F3", false⟩)],
      "waiting", 0, none⟩
    SpecEngine.landGrid5 1 List.head? rfl rfl rfl
    (fun l hl => by cases l with
      | nil => exact absurd rfl hl
      | cons a t => rfl)
    (by decide) (by decide) (by decide) (by decide)
  obtain ⟨room2, g, h1, h2, h3, h4, h5, h6, h7, h8⟩ := hhost rfl
  rw [h1]
  simp only [Option.map_some']
  rw [h2, h3, h4]
  simp only [Option.map_some']
  rw [h6, h7]
  rfl
